import Mathlib

/-!
Shallow embedding of the Automation Conflict & Recommendation Engine of the
sf-governance repository (src/server/rules/recommendationEngine.js, together
with the analysis runner `runAnalysis`/`evaluateConditions`/`applyTemplate`
and the built-in check table bundled in the same module).

Conventions of the embedding:
  * JavaScript objects coming from the `automation_inventory` table are the
    record `Item`; their jsonb `parsed_data` column is `Option ParsedData`
    with every key optional (JS `?.` access plus `|| []` defaults are folded
    through the `pd*` helper functions, one per access pattern in the source).
  * JS falsiness is modelled explicitly where it matters: `x || d` on numbers
    is `jsOrNum` (0 is falsy), `x ? a : b` on strings is `strTruthy` ("" is
    falsy).
  * Array.prototype.sort is a stable sort; it is modelled by the stable
    insertion sort `stableSort` (identical output for the total preorder
    comparators used by the source).
  * English strings assembled by template interpolation are represented by
    structured constructors carrying exactly the data interpolated into the
    string (names, phases, field lists, counts); the literal prose around the
    data is constant per constructor and is not re-modelled.
-/

namespace SFGov

/-- JS primitive value. Item attribute reads (`item[field]`) only ever yield
primitives in the modelled paths, so the left operand of every `===` below is
a primitive and structural equality coincides with JS strict equality. -/
inductive JSPrim where
  | undefined : JSPrim
  | null : JSPrim
  | bool : Bool → JSPrim
  | num : Int → JSPrim
  | str : String → JSPrim
deriving DecidableEq, Repr

/-- JS value of a declarative condition's right-hand side: a primitive or an
array of primitives (nested arrays from jsonb would only ever be compared by
reference, which always fails, so they are not represented). -/
inductive JSVal where
  | prim : JSPrim → JSVal
  | arr : List JSPrim → JSVal
deriving DecidableEq, Repr

/-- Contents of the jsonb `parsed_data` column; every key is optional, as the
source only ever reaches them through `?.` and `|| default`. -/
structure ParsedData where
  triggerType : Option String
  events : Option (List String)
  fieldUpdateFields : Option (List String)
  handlerClass : Option String
  hasDmlInBody : Option Bool
  actionTypes : Option (List String)
  dmlObjects : Option (List String)
deriving DecidableEq, Repr

/-- One `automation_inventory` row, with the columns the engine reads. -/
structure Item where
  id : Nat
  api_name : String
  object_name : Option String
  automation_type : String
  trigger_events : Option String
  is_active : Bool
  has_description : Bool
  is_managed_package : Bool
  parsed_data : Option ParsedData
deriving DecidableEq, Repr

/-- JS `item.parsed_data?.events || []`. -/
def pdEvents (item : Item) : List String :=
  (item.parsed_data.bind (fun pd => pd.events)).getD []

/-- JS `item.parsed_data?.fieldUpdateFields || []`. -/
def pdFieldUpdateFields (item : Item) : List String :=
  (item.parsed_data.bind (fun pd => pd.fieldUpdateFields)).getD []

/-- JS `item.parsed_data?.triggerType`. -/
def pdTriggerType (item : Item) : Option String :=
  item.parsed_data.bind (fun pd => pd.triggerType)

/-- JS `item.parsed_data?.handlerClass` (a present-but-empty string is falsy
wherever the source tests it, see `strTruthy`). -/
def pdHandlerClass (item : Item) : Option String :=
  item.parsed_data.bind (fun pd => pd.handlerClass)

/-- JS truthiness of `item.parsed_data?.hasDmlInBody`. -/
def pdHasDmlInBody (item : Item) : Bool :=
  (item.parsed_data.bind (fun pd => pd.hasDmlInBody)).getD false

/-- JS `item.parsed_data?.actionTypes || []`. -/
def pdActionTypes (item : Item) : List String :=
  (item.parsed_data.bind (fun pd => pd.actionTypes)).getD []

/-- JS `handlerClass.parsed_data?.dmlObjects || []`. -/
def pdDmlObjects (item : Item) : List String :=
  (item.parsed_data.bind (fun pd => pd.dmlObjects)).getD []

/-- JS `opt || d` for a looked-up number: `undefined` and `0` both fall back
to the default (0 is falsy in JS). -/
def jsOrNum (v : Option Int) (d : Int) : Int :=
  match v with
  | none => d
  | some n => if n == 0 then d else n

/-- JS truthiness of a nullable string: `undefined`, `null` and `""` are
falsy. -/
def strTruthy (v : Option String) : Bool :=
  match v with
  | none => false
  | some s => !(s == "")

/-- Dedup keeping first occurrences, the observable order of `[...new Set(l)]`. -/
def dedupFirst (l : List String) : List String :=
  (l.foldl (fun acc s => if acc.contains s then acc else acc ++ [s]) [])

/-- Insertion step of the stable sort: `x` goes in front of the first element
it compares strictly-before, hence after every element it ties with. -/
def insertStable (lt : α → α → Bool) (x : α) : List α → List α
  | [] => [x]
  | y :: ys => if lt x y then x :: y :: ys else y :: insertStable lt x ys

/-- Stable insertion sort; for the strict part of a total preorder this is
exactly the (stable) `Array.prototype.sort` of the source. -/
def stableSort (lt : α → α → Bool) (l : List α) : List α :=
  l.foldl (fun acc x => insertStable lt x acc) []

/-- Substring membership of character lists (`String.prototype.includes`). -/
def prefixOfB : List Char → List Char → Bool
  | [], _ => true
  | _ :: _, [] => false
  | a :: as, b :: bs => a == b && prefixOfB as bs

/-- Scans for an occurrence of `pat` anywhere in the subject list. -/
def includesB (pat : List Char) : List Char → Bool
  | [] => prefixOfB pat []
  | c :: rest => prefixOfB pat (c :: rest) || includesB pat rest

/-- JS `s.includes(pat)`. -/
def strIncludes (s pat : String) : Bool :=
  includesB pat.data s.data

/-- JS `s.startsWith(pre)`. -/
def startsWithB (s pre : String) : Bool :=
  prefixOfB pre.data s.data

/-- Codepoint-lexicographic strict order on character lists. -/
def listLtB : List Char → List Char → Bool
  | [], [] => false
  | [], _ :: _ => true
  | _ :: _, [] => false
  | a :: as, b :: bs => if a < b then true else if b < a then false else listLtB as bs

/-- Codepoint-lexicographic strict order on strings, modelling both the
default `Array.prototype.sort()` comparator on strings and the
`localeCompare` tie-break (no claim depends on locale collation). -/
def strLtB (a b : String) : Bool :=
  listLtB a.data b.data

/-- ASCII case folding of one character to its codepoint. -/
def charLowNat (c : Char) : Nat :=
  if 'A' ≤ c && c ≤ 'Z' then c.toNat + 32 else c.toNat

/-- ASCII model of `a.toLowerCase() === b.toLowerCase()` (object API names in
the modelled data are ASCII). -/
def eqIgnoreCase (a b : String) : Bool :=
  a.data.map charLowNat == b.data.map charLowNat

-- ───────────────────────────────────────────────────────────────────────────
-- Constants (recommendationEngine.js lines 7-41)
-- ───────────────────────────────────────────────────────────────────────────

def DEPRECATED_TYPES : List String := ["Workflow Rule", "Process Builder"]

def MODERN_FLOW_TYPES : List String := ["Record-Triggered Flow"]

def APEX_TYPES : List String := ["Apex Trigger"]

def PHASE_BEFORE_FLOW : Nat := 1
def PHASE_APEX_BEFORE : Nat := 2
def PHASE_APEX_AFTER : Nat := 3
def PHASE_WORKFLOW_RULE : Nat := 4
def PHASE_PROCESS_BUILDER : Nat := 5
def PHASE_AFTER_FLOW : Nat := 6

/-- Phase display label (`PHASE_LABEL`). -/
def PHASE_LABEL (p : Nat) : String :=
  if p == 1 then "Before-save Flow"
  else if p == 2 then "Apex before trigger"
  else if p == 3 then "Apex after trigger"
  else if p == 4 then "Workflow Rule (after save)"
  else if p == 5 then "Process Builder (after save)"
  else if p == 6 then "After-save Flow"
  else ""

/-- Execution phase(s) for one automation_inventory row (`getExecutionPhases`,
lines 47-63): an Apex Trigger covering both before and after events appears in
two phases; one covering neither defaults to the before phase. -/
def getExecutionPhases (item : Item) : List Nat :=
  if item.automation_type == "Workflow Rule" then [PHASE_WORKFLOW_RULE]
  else if item.automation_type == "Process Builder" then [PHASE_PROCESS_BUILDER]
  else if MODERN_FLOW_TYPES.contains item.automation_type then
    (if pdTriggerType item == some "RecordBeforeSave" then [PHASE_BEFORE_FLOW]
     else [PHASE_AFTER_FLOW])
  else if APEX_TYPES.contains item.automation_type then
    (let events := pdEvents item
     let phases :=
       (if events.any (fun e => startsWithB e "before") then [PHASE_APEX_BEFORE] else []) ++
       (if events.any (fun e => startsWithB e "after") then [PHASE_APEX_AFTER] else [])
     if phases.isEmpty then [PHASE_APEX_BEFORE] else phases)
  else []

-- ───────────────────────────────────────────────────────────────────────────
-- Order-of-Execution Audit (recommendationEngine.js lines 71-209)
-- ───────────────────────────────────────────────────────────────────────────

/-- One `{ item, phase }` pair built by `auditOrderOfExecution`. -/
structure Entry where
  item : Item
  phase : Nat
deriving DecidableEq, Repr

/-- Comparator of the `entries.sort`: phase ascending, then api_name ascending
(localeCompare is modelled as codepoint order; no claim depends on the locale
collation of names). -/
def entryLt (a b : Entry) : Bool :=
  a.phase < b.phase || (a.phase == b.phase && strLtB a.item.api_name b.item.api_name)

/-- Comparator of the writers sort inside the field-conflict detection. -/
def writerLt (a b : Entry) : Bool :=
  a.phase < b.phase

/-- Unsorted expansion of items into one entry per applicable phase. -/
def rawEntries (activeItems : List Item) : List Entry :=
  activeItems.flatMap (fun item => (getExecutionPhases item).map (fun p => ⟨item, p⟩))

/-- Sorted entries (`entries.sort((a, b) => a.phase - b.phase || localeCompare)`). -/
def sortedEntries (activeItems : List Item) : List Entry :=
  stableSort entryLt (rawEntries activeItems)

/-- Group of a phase (`byPhase[p] || []`); the source builds the groups by
pushing in sorted-entry order, which is exactly a filter of the sorted list. -/
def phaseGroup (entries : List Entry) (p : Nat) : List Entry :=
  entries.filter (fun e => e.phase == p)

/-- One element of the returned execution `sequence`. -/
structure SeqItem where
  name : String
  type : String
  phase : Nat
  phaseLabel : String
deriving DecidableEq, Repr

/-- Structured content of a risk's interpolated `text` string: each
constructor corresponds to one template literal in the source and carries the
data interpolated into it (names stripped of their surrounding quotes). -/
inductive RiskBody where
  | undefinedOrder (names : List String) (label : String) : RiskBody
  | flowOrder (label : String) (sortedNames : List String) : RiskBody
  | retriggerRisk (wfrNames : List String) (fieldsShown : List String)
      (moreCount : Nat) (apexNames : List String) : RiskBody
  | pbRetriggerSpecific (pbNames : List String) (fieldsShown : List String)
      (moreCount : Nat) (apexNames : List String) : RiskBody
  | pbRetriggerGeneric (pbNames : List String) (apexNames : List String) : RiskBody
  | fieldConflict (field : String) (writers : List (String × Nat))
      (winner : String × Nat) : RiskBody
deriving DecidableEq, Repr

/-- One `{ type, severity, text }` risk object. -/
structure Risk where
  rtype : String
  severity : String
  body : RiskBody
deriving DecidableEq, Repr

/-- First three field names plus the `+N more` count of the `fieldList`
rendering (`fields.slice(0, 3)` with `fields.length > 3 ? N - 3 more : ''`). -/
def fieldListShown (fields : List String) : List String × Nat :=
  (fields.take 3, if fields.length > 3 then fields.length - 3 else 0)

/-- Undefined-order risks for the two Apex phases (lines 89-102). -/
def undefinedOrderRisks (entries : List Entry) : List Risk :=
  [PHASE_APEX_BEFORE, PHASE_APEX_AFTER].flatMap (fun p =>
    let group := phaseGroup entries p
    if group.length ≥ 2 then
      [⟨"undefined_order", "high",
        .undefinedOrder (group.map (fun e => e.item.api_name))
          (if p == PHASE_APEX_BEFORE then "before" else "after")⟩]
    else [])

/-- Flow-order risks for the two Flow phases (lines 105-118); names are
re-sorted lexically (`.sort()` on strings). -/
def flowOrderRisks (entries : List Entry) : List Risk :=
  [PHASE_BEFORE_FLOW, PHASE_AFTER_FLOW].flatMap (fun p =>
    let group := phaseGroup entries p
    if group.length ≥ 2 then
      [⟨"flow_order", "warning",
        .flowOrder (if p == PHASE_BEFORE_FLOW then "before-save" else "after-save")
          (stableSort strLtB (group.map (fun e => e.item.api_name)))⟩]
    else [])

/-- Apex entries of both phases (lines 121-124). -/
def apexEntriesOf (entries : List Entry) : List Entry :=
  phaseGroup entries PHASE_APEX_BEFORE ++ phaseGroup entries PHASE_APEX_AFTER

/-- Workflow-Rule re-trigger risk (lines 125-142). -/
def retriggerRisks (entries : List Entry) : List Risk :=
  let apexEntries := apexEntriesOf entries
  let wfrWithUpdates := (phaseGroup entries PHASE_WORKFLOW_RULE).filter
    (fun e => (pdFieldUpdateFields e.item).length > 0)
  if wfrWithUpdates.length > 0 && apexEntries.length > 0 then
    let wfrNames := dedupFirst (wfrWithUpdates.map (fun e => e.item.api_name))
    let apexNames := dedupFirst (apexEntries.map (fun e => e.item.api_name))
    let fields := dedupFirst (wfrWithUpdates.flatMap (fun e => pdFieldUpdateFields e.item))
    let shown := fieldListShown fields
    [⟨"retrigger_risk", "high", .retriggerRisk wfrNames shown.1 shown.2 apexNames⟩]
  else []

/-- Process-Builder re-trigger risk (lines 146-176): a specific risk when the
parser captured field updates, otherwise a generic warning. -/
def pbRetriggerRisks (entries : List Entry) : List Risk :=
  let apexEntries := apexEntriesOf entries
  let pbEntries := phaseGroup entries PHASE_PROCESS_BUILDER
  if pbEntries.length > 0 && apexEntries.length > 0 then
    let pbWithUpdates := pbEntries.filter (fun e => (pdFieldUpdateFields e.item).length > 0)
    let apexNames := dedupFirst (apexEntries.map (fun e => e.item.api_name))
    if pbWithUpdates.length > 0 then
      let pbNames := pbWithUpdates.map (fun e => e.item.api_name)
      let fields := dedupFirst (pbWithUpdates.flatMap (fun e => pdFieldUpdateFields e.item))
      let shown := fieldListShown fields
      [⟨"pb_retrigger", "warning", .pbRetriggerSpecific pbNames shown.1 shown.2 apexNames⟩]
    else
      [⟨"pb_retrigger", "warning", .pbRetriggerGeneric
        (pbEntries.map (fun e => e.item.api_name)) apexNames⟩]
  else []

/-- Appends `e` to the entry list of key `k`, creating the key at the end when
absent — the observable behavior of `(map[field] = map[field] || []).push(e)`
on a JS object whose keys enumerate in insertion order. -/
def upsertAppend (k : String) (e : Entry) : List (String × List Entry) → List (String × List Entry)
  | [] => [(k, [e])]
  | (k₀, v) :: rest =>
    if k₀ == k then (k₀, v ++ [e]) :: rest else (k₀, v) :: upsertAppend k e rest

/-- Registers every field the entry's item writes (inner loop of lines 180-184). -/
def addFieldsOf (m : List (String × List Entry)) (e : Entry) : List (String × List Entry) :=
  (pdFieldUpdateFields e.item).foldl (fun acc f => upsertAppend f e acc) m

/-- Field-to-writers map (`fieldPhaseMap`, lines 179-184), in key insertion
order over the sorted entries. -/
def fieldPhaseMap (entries : List Entry) : List (String × List Entry) :=
  entries.foldl addFieldsOf []

/-- Field-conflict risks (lines 185-199): fields with 2+ writer entries,
writers re-sorted by phase, the last one named as winner. -/
def fieldConflictRisks (entries : List Entry) : List Risk :=
  (fieldPhaseMap entries).flatMap (fun fw =>
    if fw.2.length < 2 then []
    else
      let sortedWriters := stableSort writerLt fw.2
      match sortedWriters.getLast? with
      | none => []
      | some winner =>
        [⟨"field_conflict", "warning",
          .fieldConflict fw.1
            (sortedWriters.map (fun e => (e.item.api_name, e.phase)))
            (winner.item.api_name, winner.phase)⟩])

/-- Result of the audit (`{ sequence, risks }`). -/
structure Audit where
  sequence : List SeqItem
  risks : List Risk
deriving DecidableEq, Repr

/-- Static order-of-execution audit for active automations on one object
(`auditOrderOfExecution`, lines 71-209); risks in source emission order. -/
def auditOrderOfExecution (activeItems : List Item) : Audit :=
  let entries := sortedEntries activeItems
  { sequence := entries.map (fun e =>
      ⟨e.item.api_name, e.item.automation_type, e.phase, PHASE_LABEL e.phase⟩),
    risks := undefinedOrderRisks entries ++ flowOrderRisks entries ++
      retriggerRisks entries ++ pbRetriggerRisks entries ++ fieldConflictRisks entries }

-- ───────────────────────────────────────────────────────────────────────────
-- Event Normalization, Overlap Detection, Stack Classification (lines 367-459)
-- ───────────────────────────────────────────────────────────────────────────

/-- Adds a string to an accumulator unless already present — the observable
behavior of `Set.prototype.add` enumerated in insertion order. -/
def addUnique (acc : List String) (s : String) : List String :=
  if acc.contains s then acc else acc ++ [s]

/-- Canonical trigger events of one item (`normalizeEvents`, lines 367-383). -/
def normalizeEvents (item : Item) : List String :=
  if DEPRECATED_TYPES.contains item.automation_type then ["after save"]
  else if MODERN_FLOW_TYPES.contains item.automation_type then
    (match item.trigger_events with
     | some s => if s == "" then [] else [s]
     | none => [])
  else if APEX_TYPES.contains item.automation_type then
    (pdEvents item).foldl (fun acc e =>
      let acc1 :=
        if strIncludes e "insert" || strIncludes e "update" || strIncludes e "undelete" then
          addUnique acc (if startsWithB e "before" then "before save" else "after save")
        else acc
      if strIncludes e "delete" then addUnique acc1 "before delete" else acc1) []
  else []

/-- Appends an element to the list at assoc key `k` (insertion-ordered JS
object of arrays, as in `fieldMap` / `eventMap` / `byObject`). -/
def upsertPush (k : String) (x : α) : List (String × List α) → List (String × List α)
  | [] => [(k, [x])]
  | (k₀, v) :: rest =>
    if k₀ == k then (k₀, v ++ [x]) :: rest else (k₀, v) :: upsertPush k x rest

/-- First-match assoc lookup (JS object property read). -/
def lookupAssoc (m : List (String × α)) (k : String) : Option α :=
  (m.find? (fun kv => kv.1 == k)).map (fun kv => kv.2)

/-- Result of `detectOverlaps` (lines 392-421): fields written by 2+ items and
canonical events shared by 2+ items. -/
structure Overlaps where
  fieldOverlaps : List (String × List String)
  eventOverlaps : List (String × List (String × String))
deriving DecidableEq, Repr

/-- Field-level and trigger-event overlap detection (`detectOverlaps`). -/
def detectOverlaps (activeItems : List Item) : Overlaps :=
  let fieldMap := activeItems.foldl (fun m item =>
    (pdFieldUpdateFields item).foldl (fun acc f => upsertPush f item.api_name acc) m) []
  let eventMap := activeItems.foldl (fun m item =>
    (normalizeEvents item).foldl
      (fun acc e => upsertPush e (item.api_name, item.automation_type) acc) m) []
  { fieldOverlaps := (fieldMap.filter (fun kv => kv.2.length > 1)),
    eventOverlaps := (eventMap.filter (fun kv => kv.2.length > 1)) }

/-- Event-collision test of the classifier (lines 447-455): counts normalized
events across the flows and asks whether any count exceeds 1. -/
def flowsShareEvent (flowItems : List Item) : Bool :=
  let eventCounts := flowItems.foldl (fun m f =>
    (normalizeEvents f).foldl (fun acc e => upsertPush e () acc) m) []
  eventCounts.any (fun kv => kv.2.length > 1)

/-- Stack classification (`classifyStack`, lines 429-459). -/
def classifyStack (activeItems : List Item) : String :=
  let hasDeprecated := activeItems.any (fun i => DEPRECATED_TYPES.contains i.automation_type)
  let hasFlow := activeItems.any (fun i => MODERN_FLOW_TYPES.contains i.automation_type)
  let hasApex := activeItems.any (fun i => APEX_TYPES.contains i.automation_type)
  if hasDeprecated && hasFlow && hasApex then "deprecated_plus_mixed"
  else if hasDeprecated && hasFlow then "deprecated_plus_flow"
  else if hasDeprecated && hasApex then "deprecated_plus_apex"
  else if hasDeprecated then "deprecated_only"
  else
    let flowItems := activeItems.filter (fun i => MODERN_FLOW_TYPES.contains i.automation_type)
    let apexItems := activeItems.filter (fun i => APEX_TYPES.contains i.automation_type)
    if flowItems.length > 0 && apexItems.length > 0 then "flow_and_apex"
    else if apexItems.length > 1 then "apex_fragmented"
    else if flowItems.length > 1 && flowsShareEvent flowItems then "flow_fragmented"
    else "clean"

-- ───────────────────────────────────────────────────────────────────────────
-- Handler Class Helpers (lines 487-548)
-- ───────────────────────────────────────────────────────────────────────────

/-- One `{ trigger, handlerClass }` pair with a resolved (non-null) class. -/
structure HandlerPair where
  trigger : Item
  handlerClass : Item
deriving DecidableEq, Repr

/-- Resolves trigger → handler class pairs (`findHandlerPairs`, lines 487-494);
a missing `handlerClass` key or an unknown class name resolves to nothing. -/
def findHandlerPairs (apexItems : List Item) (classMap : List (String × Item)) :
    List HandlerPair :=
  apexItems.filterMap (fun trigger =>
    match pdHandlerClass trigger with
    | some h =>
      (match lookupAssoc classMap h with
       | some cls => some ⟨trigger, cls⟩
       | none => none)
    | none => none)

/-- Structured content of one handler warning string (lines 503-548). -/
inductive HandlerWarning where
  | handlerConflict (handlerName : String) (objectName : Option String)
      (otherNames : List String) : HandlerWarning
  | crossObjectDml (handlerName : String) (crossObjects : List String) : HandlerWarning
  | dmlInBody (triggerName : String) : HandlerWarning
deriving DecidableEq, Repr

/-- Handler-related warnings (`buildHandlerWarnings`): same-object DML
conflicts, cross-object DML, and DML directly in a trigger body. -/
def buildHandlerWarnings (handlerPairs : List HandlerPair) (apexItems : List Item)
    (otherActiveItems : List Item) : List HandlerWarning :=
  (handlerPairs.flatMap (fun p =>
    let dmlObjects := pdDmlObjects p.handlerClass
    let objectName := p.trigger.object_name
    let selfDml := dmlObjects.any (fun o => eqIgnoreCase o (objectName.getD ""))
    (if selfDml && otherActiveItems.length > 0 then
       [HandlerWarning.handlerConflict p.handlerClass.api_name objectName
          (otherActiveItems.map (fun i => i.api_name))]
     else []) ++
    (let crossObjects := dmlObjects.filter
       (fun o => !(eqIgnoreCase o (objectName.getD "")))
     if crossObjects.length > 0 then
       [HandlerWarning.crossObjectDml p.handlerClass.api_name crossObjects]
     else []))) ++
  apexItems.filterMap (fun trigger =>
    if pdHasDmlInBody trigger && !(strTruthy (pdHandlerClass trigger)) then
      some (HandlerWarning.dmlInBody trigger.api_name)
    else none)

-- ───────────────────────────────────────────────────────────────────────────
-- Rule Evaluation (analysisService: applyTemplate / evaluateConditions /
-- runAnalysis, bundled after the engine in the same module)
-- ───────────────────────────────────────────────────────────────────────────

/-- Customer profile (`{automation_preference, active_rule_layers,
suppressed_rule_ids, naming_convention_pattern}`). -/
structure Profile where
  automation_preference : Option String
  active_rule_layers : List String
  suppressed_rule_ids : List String
  naming_convention_pattern : Option String
deriving DecidableEq, Repr

/-- Dynamic property read `item[key]` over the scalar columns of an inventory
row; a jsonb column (`parsed_data`) is an object value, which the modelled
code paths only ever compare by reference — never successfully — so it is
folded into the absent case. Unknown keys read as `undefined`, nullable
columns as `null`. -/
def getAttr (item : Item) (key : String) : JSPrim :=
  if key == "id" then .num item.id
  else if key == "api_name" then .str item.api_name
  else if key == "object_name" then
    (match item.object_name with | some s => .str s | none => .null)
  else if key == "automation_type" then .str item.automation_type
  else if key == "trigger_events" then
    (match item.trigger_events with | some s => .str s | none => .null)
  else if key == "is_active" then .bool item.is_active
  else if key == "has_description" then .bool item.has_description
  else if key == "is_managed_package" then .bool item.is_managed_package
  else .undefined

/-- Character class `\w` of the template placeholder regex. -/
def isWordChar (c : Char) : Bool :=
  ('a' ≤ c && c ≤ 'z') || ('A' ≤ c && c ≤ 'Z') || ('0' ≤ c && c ≤ '9') || c == '_'

/-- Replacement text of one matched placeholder: `item[key] ?? ''` passed
through the string coercion of `String.prototype.replace`. -/
def replacementFor (item : Item) (key : String) : String :=
  match getAttr item key with
  | .undefined => ""
  | .null => ""
  | .bool b => if b then "true" else "false"
  | .num n => toString n
  | .str s => s

/-- Attempts to match the regex `\{\{(\w+)\}\}` at the head of the character
list, returning the captured key and the remainder after the match. -/
def matchPlaceholder : List Char → Option (List Char × List Char)
  | '{' :: '{' :: rest =>
    (let w := rest.takeWhile isWordChar
     match rest.dropWhile isWordChar with
     | '}' :: '}' :: rest2 => if w.isEmpty then none else some (w, rest2)
     | _ => none)
  | _ => none

theorem matchPlaceholder_length {l : List Char} {p : List Char × List Char}
    (h : matchPlaceholder l = some p) : p.2.length < l.length := by
  unfold matchPlaceholder at h
  split at h
  · rename_i rest
    dsimp only at h
    split at h
    · rename_i rest2 heq
      split at h
      · exact absurd h (by simp)
      · cases h
        have hlen : (rest.takeWhile isWordChar).length +
            (rest.dropWhile isWordChar).length = rest.length := by
          rw [← List.length_append, List.takeWhile_append_dropWhile]
        have h2 : (rest.dropWhile isWordChar).length = rest2.length + 2 := by
          rw [heq]; simp
        simp only [List.length_cons]
        omega
    · exact absurd h (by simp)
  · exact absurd h (by simp)

/-- Fuel-driven scan step of the global replace: a matched placeholder is
substituted and scanning resumes after it, otherwise one character is copied.
Each step consumes at least one character, so fuel equal to the input length
(as supplied by `applyTemplateAux`) never runs out; the fuel-exhausted branch
is unreachable there. -/
def applyTemplateGo (item : Item) : Nat → List Char → List Char
  | 0, l => l
  | _ + 1, [] => []
  | fuel + 1, c :: rest =>
    match matchPlaceholder (c :: rest) with
    | some p => (replacementFor item (String.mk p.1)).data ++ applyTemplateGo item fuel p.2
    | none => c :: applyTemplateGo item fuel rest

/-- Global leftmost scan of `template.replace(/\{\{(\w+)\}\}/g, ...)`:
non-overlapping leftmost matches replaced, everything else copied. -/
def applyTemplateAux (item : Item) (l : List Char) : List Char :=
  applyTemplateGo item l.length l

/-- Message rendering (`applyTemplate`, substituting `{{token}}` placeholders
from the item's own attributes). -/
def applyTemplate (template : String) (item : Item) : String :=
  String.mk (applyTemplateAux item template.data)

/-- One `{field, op, value}` declarative condition. -/
structure Cond where
  field : String
  op : String
  value : JSVal
deriving DecidableEq, Repr

/-- Evaluation of a single condition (the `switch` inside
`evaluateConditions`): `eq`, `ne`, `in`, `not_in`, default non-match. -/
def evalCondition (item : Item) (c : Cond) : Bool :=
  let itemVal := JSVal.prim (getAttr item c.field)
  if c.op == "eq" then itemVal == c.value
  else if c.op == "ne" then !(itemVal == c.value)
  else if c.op == "in" then
    (match c.value with
     | .arr vs => vs.contains (getAttr item c.field)
     | _ => false)
  else if c.op == "not_in" then
    (match c.value with
     | .arr vs => !(vs.contains (getAttr item c.field))
     | _ => false)
  else false

/-- Declarative condition-list evaluation (`evaluateConditions`): a null or
empty list never matches; otherwise every condition must match. -/
def evaluateConditions (item : Item) (conditions : Option (List Cond)) : Bool :=
  match conditions with
  | none => false
  | some conds => if conds.length == 0 then false else conds.all (evalCondition item)

/-- One `rules` table row as read by `runAnalysis`. -/
structure Rule where
  id : String
  layer : String
  severity : String
  check_type : String
  applies_to : List String
  conditions : Option (List Cond)
  recommendation_template : String
deriving DecidableEq, Repr

/-- One finding produced by an evaluation pass. -/
structure Finding where
  rule_id : String
  severity : String
  automation_inventory_id : Option Nat
  api_name : Option String
  object_name : Option String
  message : String
deriving DecidableEq, Repr

/-- One `(item, message)` result of a cross-item heuristic. -/
structure CrossResult where
  item : Option Item
  message : String
deriving DecidableEq, Repr

/-- Bound heuristic of a per-item rule; an `error` result models a thrown
exception. -/
def PerItemCheck : Type := Item → Profile → Except String Bool

/-- Bound heuristic of a cross-item rule, invoked once over the full list. -/
def CrossItemCheck : Type := List Item → Profile → Except String (List CrossResult)

/-- The `CHECKS` table keyed by rule id. The source stores one untyped map and
distinguishes the call shape by `rule.check_type`; the embedding splits the
map by call shape. -/
structure Checks where
  perItem : String → Option PerItemCheck
  crossItem : String → Option CrossItemCheck

/-- Findings contributed by one per-item rule: the `applies_to` filter, then
the bound heuristic (or the declarative conditions when no heuristic is
bound); a thrown heuristic is caught per item and contributes nothing. -/
def perItemFindings (checks : Checks) (inventory : List Item) (profile : Profile)
    (rule : Rule) : List Finding :=
  inventory.flatMap (fun item =>
    if rule.applies_to.length > 0 && !(rule.applies_to.contains item.automation_type) then []
    else
      let triggered : Except String Bool :=
        match checks.perItem rule.id with
        | some f => f item profile
        | none => .ok (evaluateConditions item rule.conditions)
      match triggered with
      | .ok true =>
        [⟨rule.id, rule.severity, some item.id, some item.api_name, item.object_name,
          applyTemplate rule.recommendation_template item⟩]
      | .ok false => []
      | .error _ => [])

/-- Findings contributed by one cross-item rule: skipped without a bound
heuristic; a thrown heuristic is caught and contributes nothing. -/
def crossItemFindings (checks : Checks) (inventory : List Item) (profile : Profile)
    (rule : Rule) : List Finding :=
  match checks.crossItem rule.id with
  | none => []
  | some f =>
    match f inventory profile with
    | .ok results => results.map (fun r =>
        ⟨rule.id, rule.severity, r.item.map (fun i => i.id),
         r.item.map (fun i => i.api_name), r.item.bind (fun i => i.object_name),
         r.message⟩)
    | .error _ => []

/-- Findings contributed by one rule, dispatched on `check_type`. -/
def ruleFindings (checks : Checks) (inventory : List Item) (profile : Profile)
    (rule : Rule) : List Finding :=
  if rule.check_type == "per_item" then perItemFindings checks inventory profile rule
  else crossItemFindings checks inventory profile rule

/-- One evaluation pass (`runAnalysis`): filters rules to active layers minus
suppressions, then accumulates each rule's findings in order. -/
def runAnalysis (checks : Checks) (inventory : List Item) (rules : List Rule)
    (profile : Profile) : List Finding :=
  let activeRules := rules.filter (fun r =>
    profile.active_rule_layers.contains r.layer &&
    !(profile.suppressed_rule_ids.contains r.id))
  activeRules.flatMap (ruleFindings checks inventory profile)

-- ───────────────────────────────────────────────────────────────────────────
-- Step Builders (lines 215-219, 466-475, 556-732)
-- ───────────────────────────────────────────────────────────────────────────

/-- Structured content of one remediation step string. Each constructor
corresponds to one template literal of `buildSteps` / `formatSequenceStep` /
`buildOverlapWarnings` / `buildGlobalRecs` and carries the data interpolated
into it. `apexDesc` arguments are `describeApex` output: trigger name paired
with its delegate class name when resolved. -/
inductive Step where
  | seqListing (seq : List SeqItem) : Step
  | riskWarning (r : Risk) : Step
  | handlerWarning (w : HandlerWarning) : Step
  | overlapWarning (field : String) (names : List String) : Step
  | auditDeprecatedEmail (names : List String) (objectName : String) : Step
  | buildApexHandler (objectName : String) : Step
  | buildNewFlow (objectName : String) : Step
  | testNewTarget (target : String) (names : List String) : Step
  | deactivateArchive (names : List String) : Step
  | auditExistingFlows (flowCount : Nat) (objectName : String) (names : List String) : Step
  | auditDeprecatedActions (names : List String) : Step
  | consolidateAllIntoHandler (flowCount : Nat) (objectName : String) : Step
  | testConsolidatedTrigger : Step
  | deactivateOnce (names : List String) : Step
  | consolidateSharedFlows (flowCount : Nat) (objectName : String) (names : List String) : Step
  | reviewExistingFlows (flowCount : Nat) (objectName : String) (names : List String) : Step
  | migrateIntoFlow (names : List String) (consolidated : Bool) : Step
  | testUpdatedFlow : Step
  | deactivateMaybeRedundant (names : List String) (redundantFlows : Bool) : Step
  | auditApexMap (apexDesc : List (String × Option String)) (objectName : String)
      (handlerNote : Bool) : Step
  | evaluateApexToFlowMigrate (apexDesc : List (String × Option String))
      (deprecatedNames : List String) (objectName : String) : Step
  | consolidateIntoExistingHandler (deprecatedNames : List String) (objectName : String) : Step
  | testConsolidatedAutomation : Step
  | fullAuditComplex (objectName : String) (names : List String) : Step
  | auditApexAsync (apexDesc : List (String × Option String)) (handlerNote : Bool) : Step
  | auditFlowsElements (names : List String) : Step
  | consolidateAllApexMixed (objectName : String) : Step
  | buildRegressionSuite : Step
  | deactivateVerified (names : List String) : Step
  | evaluateApexToConsolidatedFlow (apexDesc : List (String × Option String))
      (flowCount : Nat) (deprecatedNames : List String) (objectName : String) : Step
  | auditSharedFlows (flowCount : Nat) (objectName : String) (names : List String) : Step
  | mergeFlowsDecision : Step
  | testConsolidatedFlow : Step
  | deactivateRedundantFlows : Step
  | auditApexUndefined (apexDesc : List (String × Option String)) (objectName : String)
      (handlerNote : Bool) : Step
  | implementSingleHandler (objectName : String)
      (mergeHandlerNames : Option (List String)) : Step
  | replaceTriggersDispatch (triggerCount : Nat) : Step
  | testConsolidatedHandler : Step
  | deleteOrDeactivateTriggers : Step
  | auditFlowsCoexist (names : List String) : Step
  | auditApexCoexist (apexDesc : List (String × Option String)) (handlerNote : Bool) : Step
  | evaluateCoexistence (flowFirst : Bool) : Step
  | ensureDescriptions : Step
  | globalAddDescriptions (names : List String) : Step
  | globalDescriptionContents : Step
  | globalReviewInactive (names : List String) : Step
  | globalDeleteUnused : Step
  | legacyAudit (names : List String) (objectLabel : Option String) : Step
  | legacyMigrateToFlows (legacyNames : List String) (flowNames : List String) : Step
  | legacyMigrateToApex (legacyNames : List String) (apexNames : List String) : Step
  | legacyBuildFlow (objectLabel : String) : Step
  | legacyMapToNew : Step
  | legacyTestSandbox : Step
  | legacyDeactivateWarning : Step
deriving Repr

/-- All payloads a `Step` constructor can carry, gathered in one flat record;
unused fields hold defaults. Used to give `Step` a decidable equality whose
terms stay small. -/
structure StepData where
  s1 : String
  s2 : Option String
  n : Nat
  b : Bool
  l1 : List String
  l2 : List String
  lopt : Option (List String)
  seq : List SeqItem
  rk : Option Risk
  hw : Option HandlerWarning
  apex : List (String × Option String)
deriving DecidableEq, Repr

/-- Constructor index of a `Step`. -/
def stepTag : Step → Nat
  | .seqListing _ => 0
  | .riskWarning _ => 1
  | .handlerWarning _ => 2
  | .overlapWarning _ _ => 3
  | .auditDeprecatedEmail _ _ => 4
  | .buildApexHandler _ => 5
  | .buildNewFlow _ => 6
  | .testNewTarget _ _ => 7
  | .deactivateArchive _ => 8
  | .auditExistingFlows _ _ _ => 9
  | .auditDeprecatedActions _ => 10
  | .consolidateAllIntoHandler _ _ => 11
  | .testConsolidatedTrigger => 12
  | .deactivateOnce _ => 13
  | .consolidateSharedFlows _ _ _ => 14
  | .reviewExistingFlows _ _ _ => 15
  | .migrateIntoFlow _ _ => 16
  | .testUpdatedFlow => 17
  | .deactivateMaybeRedundant _ _ => 18
  | .auditApexMap _ _ _ => 19
  | .evaluateApexToFlowMigrate _ _ _ => 20
  | .consolidateIntoExistingHandler _ _ => 21
  | .testConsolidatedAutomation => 22
  | .fullAuditComplex _ _ => 23
  | .auditApexAsync _ _ => 24
  | .auditFlowsElements _ => 25
  | .consolidateAllApexMixed _ => 26
  | .buildRegressionSuite => 27
  | .deactivateVerified _ => 28
  | .evaluateApexToConsolidatedFlow _ _ _ _ => 29
  | .auditSharedFlows _ _ _ => 30
  | .mergeFlowsDecision => 31
  | .testConsolidatedFlow => 32
  | .deactivateRedundantFlows => 33
  | .auditApexUndefined _ _ _ => 34
  | .implementSingleHandler _ _ => 35
  | .replaceTriggersDispatch _ => 36
  | .testConsolidatedHandler => 37
  | .deleteOrDeactivateTriggers => 38
  | .auditFlowsCoexist _ => 39
  | .auditApexCoexist _ _ => 40
  | .evaluateCoexistence _ => 41
  | .ensureDescriptions => 42
  | .globalAddDescriptions _ => 43
  | .globalDescriptionContents => 44
  | .globalReviewInactive _ => 45
  | .globalDeleteUnused => 46
  | .legacyAudit _ _ => 47
  | .legacyMigrateToFlows _ _ => 48
  | .legacyMigrateToApex _ _ => 49
  | .legacyBuildFlow _ => 50
  | .legacyMapToNew => 51
  | .legacyTestSandbox => 52
  | .legacyDeactivateWarning => 53

/-- Payloads of a `Step`, with defaults in the unused fields. -/
def stepData : Step → StepData
  | .seqListing seq => ⟨"", none, 0, false, [], [], none, seq, none, none, []⟩
  | .riskWarning r => ⟨"", none, 0, false, [], [], none, [], some r, none, []⟩
  | .handlerWarning w => ⟨"", none, 0, false, [], [], none, [], none, some w, []⟩
  | .overlapWarning x y => ⟨x, none, 0, false, y, [], none, [], none, none, []⟩
  | .auditDeprecatedEmail x y => ⟨y, none, 0, false, x, [], none, [], none, none, []⟩
  | .buildApexHandler x => ⟨x, none, 0, false, [], [], none, [], none, none, []⟩
  | .buildNewFlow x => ⟨x, none, 0, false, [], [], none, [], none, none, []⟩
  | .testNewTarget x y => ⟨x, none, 0, false, y, [], none, [], none, none, []⟩
  | .deactivateArchive x => ⟨"", none, 0, false, x, [], none, [], none, none, []⟩
  | .auditExistingFlows x y z => ⟨y, none, x, false, z, [], none, [], none, none, []⟩
  | .auditDeprecatedActions x => ⟨"", none, 0, false, x, [], none, [], none, none, []⟩
  | .consolidateAllIntoHandler x y => ⟨y, none, x, false, [], [], none, [], none, none, []⟩
  | .testConsolidatedTrigger => ⟨"", none, 0, false, [], [], none, [], none, none, []⟩
  | .deactivateOnce x => ⟨"", none, 0, false, x, [], none, [], none, none, []⟩
  | .consolidateSharedFlows x y z => ⟨y, none, x, false, z, [], none, [], none, none, []⟩
  | .reviewExistingFlows x y z => ⟨y, none, x, false, z, [], none, [], none, none, []⟩
  | .migrateIntoFlow x y => ⟨"", none, 0, y, x, [], none, [], none, none, []⟩
  | .testUpdatedFlow => ⟨"", none, 0, false, [], [], none, [], none, none, []⟩
  | .deactivateMaybeRedundant x y => ⟨"", none, 0, y, x, [], none, [], none, none, []⟩
  | .auditApexMap x y z => ⟨y, none, 0, z, [], [], none, [], none, none, x⟩
  | .evaluateApexToFlowMigrate x y z => ⟨z, none, 0, false, y, [], none, [], none, none, x⟩
  | .consolidateIntoExistingHandler x y => ⟨y, none, 0, false, x, [], none, [], none, none, []⟩
  | .testConsolidatedAutomation => ⟨"", none, 0, false, [], [], none, [], none, none, []⟩
  | .fullAuditComplex x y => ⟨x, none, 0, false, y, [], none, [], none, none, []⟩
  | .auditApexAsync x y => ⟨"", none, 0, y, [], [], none, [], none, none, x⟩
  | .auditFlowsElements x => ⟨"", none, 0, false, x, [], none, [], none, none, []⟩
  | .consolidateAllApexMixed x => ⟨x, none, 0, false, [], [], none, [], none, none, []⟩
  | .buildRegressionSuite => ⟨"", none, 0, false, [], [], none, [], none, none, []⟩
  | .deactivateVerified x => ⟨"", none, 0, false, x, [], none, [], none, none, []⟩
  | .evaluateApexToConsolidatedFlow x y z u => ⟨u, none, y, false, z, [], none, [], none, none, x⟩
  | .auditSharedFlows x y z => ⟨y, none, x, false, z, [], none, [], none, none, []⟩
  | .mergeFlowsDecision => ⟨"", none, 0, false, [], [], none, [], none, none, []⟩
  | .testConsolidatedFlow => ⟨"", none, 0, false, [], [], none, [], none, none, []⟩
  | .deactivateRedundantFlows => ⟨"", none, 0, false, [], [], none, [], none, none, []⟩
  | .auditApexUndefined x y z => ⟨y, none, 0, z, [], [], none, [], none, none, x⟩
  | .implementSingleHandler x y => ⟨x, none, 0, false, [], [], y, [], none, none, []⟩
  | .replaceTriggersDispatch x => ⟨"", none, x, false, [], [], none, [], none, none, []⟩
  | .testConsolidatedHandler => ⟨"", none, 0, false, [], [], none, [], none, none, []⟩
  | .deleteOrDeactivateTriggers => ⟨"", none, 0, false, [], [], none, [], none, none, []⟩
  | .auditFlowsCoexist x => ⟨"", none, 0, false, x, [], none, [], none, none, []⟩
  | .auditApexCoexist x y => ⟨"", none, 0, y, [], [], none, [], none, none, x⟩
  | .evaluateCoexistence x => ⟨"", none, 0, x, [], [], none, [], none, none, []⟩
  | .ensureDescriptions => ⟨"", none, 0, false, [], [], none, [], none, none, []⟩
  | .globalAddDescriptions x => ⟨"", none, 0, false, x, [], none, [], none, none, []⟩
  | .globalDescriptionContents => ⟨"", none, 0, false, [], [], none, [], none, none, []⟩
  | .globalReviewInactive x => ⟨"", none, 0, false, x, [], none, [], none, none, []⟩
  | .globalDeleteUnused => ⟨"", none, 0, false, [], [], none, [], none, none, []⟩
  | .legacyAudit x y => ⟨"", y, 0, false, x, [], none, [], none, none, []⟩
  | .legacyMigrateToFlows x y => ⟨"", none, 0, false, x, y, none, [], none, none, []⟩
  | .legacyMigrateToApex x y => ⟨"", none, 0, false, x, y, none, [], none, none, []⟩
  | .legacyBuildFlow x => ⟨x, none, 0, false, [], [], none, [], none, none, []⟩
  | .legacyMapToNew => ⟨"", none, 0, false, [], [], none, [], none, none, []⟩
  | .legacyTestSandbox => ⟨"", none, 0, false, [], [], none, [], none, none, []⟩
  | .legacyDeactivateWarning => ⟨"", none, 0, false, [], [], none, [], none, none, []⟩

/-- Decoder: rebuilds a `Step` from its tag and payload record. -/
def stepOfTag : Nat → StepData → Option Step
  | 0, a => some (.seqListing a.seq)
  | 1, a => a.rk.map (fun r => .riskWarning r)
  | 2, a => a.hw.map (fun w => .handlerWarning w)
  | 3, a => some (.overlapWarning a.s1 a.l1)
  | 4, a => some (.auditDeprecatedEmail a.l1 a.s1)
  | 5, a => some (.buildApexHandler a.s1)
  | 6, a => some (.buildNewFlow a.s1)
  | 7, a => some (.testNewTarget a.s1 a.l1)
  | 8, a => some (.deactivateArchive a.l1)
  | 9, a => some (.auditExistingFlows a.n a.s1 a.l1)
  | 10, a => some (.auditDeprecatedActions a.l1)
  | 11, a => some (.consolidateAllIntoHandler a.n a.s1)
  | 12, _ => some .testConsolidatedTrigger
  | 13, a => some (.deactivateOnce a.l1)
  | 14, a => some (.consolidateSharedFlows a.n a.s1 a.l1)
  | 15, a => some (.reviewExistingFlows a.n a.s1 a.l1)
  | 16, a => some (.migrateIntoFlow a.l1 a.b)
  | 17, _ => some .testUpdatedFlow
  | 18, a => some (.deactivateMaybeRedundant a.l1 a.b)
  | 19, a => some (.auditApexMap a.apex a.s1 a.b)
  | 20, a => some (.evaluateApexToFlowMigrate a.apex a.l1 a.s1)
  | 21, a => some (.consolidateIntoExistingHandler a.l1 a.s1)
  | 22, _ => some .testConsolidatedAutomation
  | 23, a => some (.fullAuditComplex a.s1 a.l1)
  | 24, a => some (.auditApexAsync a.apex a.b)
  | 25, a => some (.auditFlowsElements a.l1)
  | 26, a => some (.consolidateAllApexMixed a.s1)
  | 27, _ => some .buildRegressionSuite
  | 28, a => some (.deactivateVerified a.l1)
  | 29, a => some (.evaluateApexToConsolidatedFlow a.apex a.n a.l1 a.s1)
  | 30, a => some (.auditSharedFlows a.n a.s1 a.l1)
  | 31, _ => some .mergeFlowsDecision
  | 32, _ => some .testConsolidatedFlow
  | 33, _ => some .deactivateRedundantFlows
  | 34, a => some (.auditApexUndefined a.apex a.s1 a.b)
  | 35, a => some (.implementSingleHandler a.s1 a.lopt)
  | 36, a => some (.replaceTriggersDispatch a.n)
  | 37, _ => some .testConsolidatedHandler
  | 38, _ => some .deleteOrDeactivateTriggers
  | 39, a => some (.auditFlowsCoexist a.l1)
  | 40, a => some (.auditApexCoexist a.apex a.b)
  | 41, a => some (.evaluateCoexistence a.b)
  | 42, _ => some .ensureDescriptions
  | 43, a => some (.globalAddDescriptions a.l1)
  | 44, _ => some .globalDescriptionContents
  | 45, a => some (.globalReviewInactive a.l1)
  | 46, _ => some .globalDeleteUnused
  | 47, a => some (.legacyAudit a.l1 a.s2)
  | 48, a => some (.legacyMigrateToFlows a.l1 a.l2)
  | 49, a => some (.legacyMigrateToApex a.l1 a.l2)
  | 50, a => some (.legacyBuildFlow a.s1)
  | 51, _ => some .legacyMapToNew
  | 52, _ => some .legacyTestSandbox
  | 53, _ => some .legacyDeactivateWarning
  | _, _ => none

theorem stepOfTag_stepTag : ∀ s : Step, stepOfTag (stepTag s) (stepData s) = some s := by
  intro s
  cases s <;> rfl

instance : DecidableEq Step := fun a b =>
  if h : stepTag a = stepTag b ∧ stepData a = stepData b then
    isTrue (by
      have ha := stepOfTag_stepTag a
      rw [h.1, h.2, stepOfTag_stepTag b] at ha
      exact (Option.some.inj ha).symm)
  else
    isFalse (fun he => h (by cases he; exact ⟨rfl, rfl⟩))

/-- Sequence listing reused as a step (`formatSequenceStep`): null when at
most one entry participates, else the 1-indexed listing of the sequence. -/
def formatSequenceStep (sequence : List SeqItem) : Option Step :=
  if sequence.length ≤ 1 then none else some (Step.seqListing sequence)

/-- Fallback overlap warnings (`buildOverlapWarnings`), used for the step list
only when no order-of-execution audit is supplied. -/
def buildOverlapWarnings (overlaps : Overlaps) : List Step :=
  overlaps.fieldOverlaps.map (fun fo => Step.overlapWarning fo.1 fo.2)

/-- Apex trigger descriptions (`describeApex` inside `buildSteps`): the
trigger name with its resolved handler class name, if any. -/
def describeApex (items : List Item) (handlerPairs : List HandlerPair) :
    List (String × Option String) :=
  items.map (fun t =>
    match handlerPairs.find? (fun p => p.trigger.id == t.id) with
    | some p => (t.api_name, some p.handlerClass.api_name)
    | none => (t.api_name, none))

/-- Names of a list of items (`nameList`, without the quote decoration). -/
def namesOf (items : List Item) : List String :=
  items.map (fun i => i.api_name)

/-- Pattern-specific ordered implementation steps (`buildSteps`,
lines 556-732). -/
def buildSteps (pattern : String) (objectName : String) (activeItems : List Item)
    (overlaps : Overlaps) (preference : String) (handlerPairs : List HandlerPair)
    (handlerWarnings : List HandlerWarning) (ooeAudit : Option Audit) : List Step :=
  let deprecated := activeItems.filter (fun i => DEPRECATED_TYPES.contains i.automation_type)
  let flows := activeItems.filter (fun i => MODERN_FLOW_TYPES.contains i.automation_type)
  let apex := activeItems.filter (fun i => APEX_TYPES.contains i.automation_type)
  let ooeRisks : List Step :=
    match ooeAudit with
    | some a => a.risks.map Step.riskWarning
    | none => buildOverlapWarnings overlaps
  let seqPart : List Step :=
    match ooeAudit with
    | some a =>
      (match formatSequenceStep a.sequence with
       | some s => [s]
       | none => [])
    | none => []
  let allWarnings := ooeRisks ++ handlerWarnings.map Step.handlerWarning
  if pattern == "deprecated_only" then
    let target := if preference == "apex_first" then "Apex Trigger handler"
      else "Record-Triggered Flow"
    [Step.auditDeprecatedEmail (namesOf deprecated) objectName] ++ seqPart ++ allWarnings ++
    [(if preference == "apex_first" then Step.buildApexHandler objectName
      else Step.buildNewFlow objectName),
     Step.testNewTarget target (namesOf deprecated),
     Step.deactivateArchive (namesOf deprecated)]
  else if pattern == "deprecated_plus_flow" then
    let flowsFragmented := flowsShareEvent flows
    if preference == "apex_first" then
      [Step.auditExistingFlows flows.length objectName (namesOf flows),
       Step.auditDeprecatedActions (namesOf deprecated)] ++ seqPart ++ allWarnings ++
      [Step.consolidateAllIntoHandler flows.length objectName,
       Step.testConsolidatedTrigger,
       Step.deactivateOnce (namesOf (flows ++ deprecated))]
    else
      (if flowsFragmented then
        [Step.consolidateSharedFlows flows.length objectName (namesOf flows)]
       else
        [Step.reviewExistingFlows flows.length objectName (namesOf flows)]) ++
      [Step.auditDeprecatedActions (namesOf deprecated)] ++ seqPart ++ allWarnings ++
      [Step.migrateIntoFlow (namesOf deprecated) flowsFragmented,
       Step.testUpdatedFlow,
       Step.deactivateMaybeRedundant (namesOf deprecated) flowsFragmented]
  else if pattern == "deprecated_plus_apex" then
    let apexDesc := describeApex apex handlerPairs
    [Step.auditApexMap apexDesc objectName (handlerPairs.length > 0),
     Step.auditDeprecatedActions (namesOf deprecated)] ++ seqPart ++ allWarnings ++
    (if preference == "flow_first" then
      [Step.evaluateApexToFlowMigrate apexDesc (namesOf deprecated) objectName]
     else
      [Step.consolidateIntoExistingHandler (namesOf deprecated) objectName]) ++
    [Step.testConsolidatedAutomation, Step.deactivateOnce (namesOf deprecated)]
  else if pattern == "deprecated_plus_mixed" then
    let apexDesc := describeApex apex handlerPairs
    [Step.fullAuditComplex objectName (namesOf activeItems)] ++ seqPart ++
    [Step.auditApexAsync apexDesc (handlerPairs.length > 0),
     Step.auditFlowsElements (namesOf flows),
     Step.auditDeprecatedActions (namesOf deprecated)] ++ allWarnings ++
    (if preference == "apex_first" then
      [Step.consolidateAllApexMixed objectName, Step.buildRegressionSuite,
       Step.deactivateVerified (namesOf (deprecated ++ flows))]
     else
      [Step.evaluateApexToConsolidatedFlow apexDesc flows.length (namesOf deprecated)
         objectName,
       Step.buildRegressionSuite,
       Step.deactivateMaybeRedundant (namesOf deprecated) (flows.length > 1)])
  else if pattern == "flow_fragmented" then
    [Step.auditSharedFlows flows.length objectName (namesOf flows)] ++ seqPart ++
    allWarnings ++
    [Step.mergeFlowsDecision, Step.testConsolidatedFlow, Step.deactivateRedundantFlows]
  else if pattern == "apex_fragmented" then
    let apexDesc := describeApex apex handlerPairs
    [Step.auditApexUndefined apexDesc objectName (handlerPairs.length > 0)] ++ seqPart ++
    allWarnings ++
    [Step.implementSingleHandler objectName
       (if handlerPairs.length > 0 then
          some (handlerPairs.map (fun p => p.handlerClass.api_name))
        else none),
     Step.replaceTriggersDispatch apex.length,
     Step.testConsolidatedHandler,
     Step.deleteOrDeactivateTriggers]
  else if pattern == "flow_and_apex" then
    let apexDesc := describeApex apex handlerPairs
    [Step.auditFlowsCoexist (namesOf flows),
     Step.auditApexCoexist apexDesc (handlerPairs.length > 0)] ++ seqPart ++ allWarnings ++
    [Step.evaluateCoexistence (preference == "flow_first"), Step.ensureDescriptions]
  else []

-- ───────────────────────────────────────────────────────────────────────────
-- Scoring and Severity Helpers (lines 335-359)
-- ───────────────────────────────────────────────────────────────────────────

/-- Severity weight lookup (`severityScore` inside `computeScore`). -/
def severityScoreOf (s : String) : Option Int :=
  if s == "error" then some 100
  else if s == "warning" then some 50
  else if s == "info" then some 10
  else none

/-- Effort penalty lookup (`effortPenalty` inside `computeScore`). -/
def effortPenaltyOf (e : String) : Option Int :=
  if e == "low" then some 0
  else if e == "medium" then some 10
  else if e == "high" then some 25
  else none

/-- Priority score (`computeScore`):
`(severityScore[severity] || 10) + affectedCount * 5 - (effortPenalty[effort] || 10)`.
Both lookups fall through JS `||`, under which a looked-up `0` is falsy. -/
def computeScore (severity : String) (affectedCount : Nat) (effort : String) : Int :=
  jsOrNum (severityScoreOf severity) 10 + (affectedCount : Int) * 5 -
    jsOrNum (effortPenaltyOf effort) 10

/-- Effort estimation table (`estimateEffort`). -/
def estimateEffort (pattern : String) (itemCount : Nat) : String :=
  if pattern == "deprecated_plus_mixed" || pattern == "apex_fragmented" then "high"
  else if itemCount > 5 then "high"
  else if ["deprecated_only", "deprecated_plus_flow", "deprecated_plus_apex"].contains
      pattern then
    (if itemCount > 2 then "high" else "medium")
  else if pattern == "flow_fragmented" || pattern == "flow_and_apex" then "medium"
  else "low"

/-- Severity rank of `worstSeverity` (`order[f.severity] ?? 2`). -/
def sevRank (s : String) : Nat :=
  if s == "error" then 0 else if s == "warning" then 1 else 2

/-- Worst severity among findings (`worstSeverity`). -/
def worstSeverity (findings : List Finding) : String :=
  let best := findings.foldl (fun b f => min b (sevRank f.severity)) 2
  if best == 0 then "error" else if best == 1 then "warning" else "info"

-- ───────────────────────────────────────────────────────────────────────────
-- Global Recommendations and Main Entry Point (lines 857-1133)
-- ───────────────────────────────────────────────────────────────────────────

/-- One recommendation as built by `buildGlobalRecs` before a priority score
is attached; prose fields (title, rationale, paths) are not re-modelled. -/
structure GlobalRec where
  object_name : Option String
  pattern : String
  severity : String
  effort_estimate : String
  affected_ids : List Nat
  steps : List Step
deriving DecidableEq, Repr

/-- Grouping key `item.object_name || '__global__'` (an empty-string object
name is falsy in JS). -/
def objectKeyOf (item : Item) : String :=
  match item.object_name with
  | some s => if s == "" then "__global__" else s
  | none => "__global__"

/-- Org-wide recommendations (`buildGlobalRecs`): undocumented active items,
inactive clutter, and one legacy-migration recommendation per object. -/
def buildGlobalRecs (allItems : List Item) (byObject : List (String × List Item)) :
    List GlobalRec :=
  let undocumented := allItems.filter (fun i =>
    i.is_active && !i.has_description && !i.is_managed_package)
  let part1 : List GlobalRec :=
    if undocumented.length ≥ 3 then
      [⟨none, "global_description", "warning",
        (if undocumented.length > 10 then "medium" else "low"),
        undocumented.map (fun i => i.id),
        [Step.globalAddDescriptions (namesOf undocumented),
         Step.globalDescriptionContents]⟩]
    else []
  let inactive := allItems.filter (fun i => !i.is_active && !i.is_managed_package)
  let part2 : List GlobalRec :=
    if inactive.length ≥ 3 then
      [⟨none, "global_inactive", "info", "low", inactive.map (fun i => i.id),
        [Step.globalReviewInactive (namesOf inactive), Step.globalDeleteUnused]⟩]
    else []
  let activeDeprecated := allItems.filter (fun i =>
    i.is_active && !i.is_managed_package && DEPRECATED_TYPES.contains i.automation_type)
  let legacyByObject := activeDeprecated.foldl
    (fun m item => upsertPush (objectKeyOf item) item m) []
  let part3 : List GlobalRec := legacyByObject.map (fun kv =>
    let legacyItems := kv.2
    let objectLabel : Option String := if kv.1 == "__global__" then none else some kv.1
    let allOnObject : List Item :=
      if kv.1 == "__global__" then [] else (lookupAssoc byObject kv.1).getD []
    let modernActive := allOnObject.filter (fun i =>
      i.is_active && !(DEPRECATED_TYPES.contains i.automation_type) &&
      !(i.automation_type == "Apex Class"))
    let flowsOnObject := modernActive.filter (fun i =>
      MODERN_FLOW_TYPES.contains i.automation_type)
    let apexOnObject := modernActive.filter (fun i =>
      APEX_TYPES.contains i.automation_type)
    let steps :=
      [Step.legacyAudit (namesOf legacyItems) objectLabel] ++
      (if flowsOnObject.length > 0 then
        [Step.legacyMigrateToFlows (namesOf legacyItems) (namesOf flowsOnObject)]
       else if apexOnObject.length > 0 then
        [Step.legacyMigrateToApex (namesOf legacyItems) (namesOf apexOnObject)]
       else
        (match objectLabel with
         | some lbl => [Step.legacyBuildFlow lbl]
         | none => [Step.legacyMapToNew])) ++
      [Step.legacyTestSandbox, Step.legacyDeactivateWarning]
    ⟨none, "global_legacy", "error",
     (if legacyItems.length > 3 then "high" else "medium"),
     legacyItems.map (fun i => i.id), steps⟩)
  part1 ++ part2 ++ part3

/-- One synthesized recommendation; prose fields (title, rationale, the
recommended/alternative path texts) are not re-modelled. -/
structure Reco where
  object_name : Option String
  pattern : String
  severity : String
  effort_estimate : String
  priority_score : Int
  affected_ids : List Nat
  steps : List Step
deriving DecidableEq, Repr

/-- Inventory grouped by object, skipping Apex Classes (`byObject`). -/
def groupByObject (inventory : List Item) : List (String × List Item) :=
  inventory.foldl (fun m item =>
    if item.automation_type == "Apex Class" then m
    else upsertPush (objectKeyOf item) item m) []

/-- Handler-class lookup by api_name (`classMap`); a repeated name keeps its
first position but the later row wins, as JS property assignment does. -/
def classMapOf (inventory : List Item) : List (String × Item) :=
  inventory.foldl (fun m item =>
    if item.automation_type == "Apex Class" then
      (if m.any (fun kv => kv.1 == item.api_name) then
        m.map (fun kv => if kv.1 == item.api_name then (kv.1, item) else kv)
       else m ++ [(item.api_name, item)])
    else m) []

/-- Recommendation for one object group, when its active items classify to a
non-clean pattern (body of the object-level loop, lines 1034-1079). -/
def objectRecFor (inventory : List Item) (findings : List Finding) (preference : String)
    (kv : String × List Item) : List Reco :=
  if kv.1 == "__global__" then []
  else
    let activeItems := kv.2.filter (fun i => i.is_active)
    if activeItems.length == 0 then []
    else
      let pattern := classifyStack activeItems
      if pattern == "clean" then []
      else
        let overlaps := detectOverlaps activeItems
        let ooeAudit := auditOrderOfExecution activeItems
        let apexItems := activeItems.filter (fun i => APEX_TYPES.contains i.automation_type)
        let handlerPairs := findHandlerPairs apexItems (classMapOf inventory)
        let nonApexActive := activeItems.filter
          (fun i => !(APEX_TYPES.contains i.automation_type))
        let handlerWarnings := buildHandlerWarnings handlerPairs apexItems nonApexActive
        let itemIds := kv.2.map (fun i => i.id)
        let groupFindings := findings.filter (fun f =>
          match f.automation_inventory_id with
          | some i => itemIds.contains i
          | none => false)
        let severity := if groupFindings.length > 0 then worstSeverity groupFindings
          else "info"
        let effort := estimateEffort pattern activeItems.length
        [⟨some kv.1, pattern, severity, effort,
          computeScore severity activeItems.length effort,
          activeItems.map (fun i => i.id),
          buildSteps pattern kv.1 activeItems overlaps preference handlerPairs
            handlerWarnings (some ooeAudit)⟩]

/-- Pure core of `generateRecommendations` (lines 1011-1094): the recommendation
list as assembled and sorted before persistence; the database insert loop and
its returned row count are outside the model. -/
def generateRecommendations (inventory : List Item) (findings : List Finding)
    (profile : Profile) : List Reco :=
  let preference :=
    match profile.automation_preference with
    | some p => if p == "" then "flow_first" else p
    | none => "flow_first"
  let byObject := groupByObject inventory
  let objectRecs := byObject.flatMap (objectRecFor inventory findings preference)
  let globalRecs := (buildGlobalRecs inventory byObject).map (fun r =>
    ⟨r.object_name, r.pattern, r.severity, r.effort_estimate,
     computeScore r.severity r.affected_ids.length r.effort_estimate,
     r.affected_ids, r.steps⟩)
  stableSort (fun a b => b.priority_score < a.priority_score) (objectRecs ++ globalRecs)

-- ───────────────────────────────────────────────────────────────────────────
-- General lemmas about the list helpers
-- ───────────────────────────────────────────────────────────────────────────

theorem insertStable_perm (lt : α → α → Bool) (x : α) (l : List α) :
    (insertStable lt x l).Perm (x :: l) := by
  induction l with
  | nil => simp [insertStable]
  | cons y ys ih =>
    simp only [insertStable]
    split
    · exact .refl _
    · exact (ih.cons y).trans (List.Perm.swap x y ys)

theorem stableSort_aux_perm (lt : α → α → Bool) (l : List α) :
    ∀ acc : List α, (l.foldl (fun acc x => insertStable lt x acc) acc).Perm (acc ++ l) := by
  induction l with
  | nil => intro acc; simp
  | cons x xs ih =>
    intro acc
    simp only [List.foldl_cons]
    refine (ih (insertStable lt x acc)).trans ?_
    refine (List.Perm.append_right xs (insertStable_perm lt x acc)).trans ?_
    exact List.perm_middle.symm

theorem stableSort_perm (lt : α → α → Bool) (l : List α) :
    (stableSort lt l).Perm l := by
  simpa using stableSort_aux_perm lt l []

theorem mem_insertStable {lt : α → α → Bool} {x z : α} {l : List α}
    (h : z ∈ insertStable lt x l) : z = x ∨ z ∈ l :=
  by simpa using (insertStable_perm lt x l).mem_iff.mp h

theorem insertStable_pairwise {lt : α → α → Bool}
    (hcompat : ∀ a b c, lt a b = true → lt c b = false → lt c a = false)
    (hasym : ∀ a b, lt a b = true → lt b a = false)
    {x : α} {l : List α} (hl : l.Pairwise (fun a b => lt b a = false)) :
    (insertStable lt x l).Pairwise (fun a b => lt b a = false) := by
  induction l with
  | nil => simp [insertStable]
  | cons y ys ih =>
    rcases List.pairwise_cons.mp hl with ⟨hy, hys⟩
    simp only [insertStable]
    split
    · rename_i hxy
      refine List.pairwise_cons.mpr ⟨?_, hl⟩
      intro z hz
      rcases List.mem_cons.mp hz with rfl | hz
      · exact hasym x z hxy
      · exact hcompat x y z hxy (hy z hz)
    · rename_i hxy
      refine List.pairwise_cons.mpr ⟨?_, ih hys⟩
      intro z hz
      rcases mem_insertStable hz with rfl | hz
      · simpa using hxy
      · exact hy z hz

theorem stableSort_pairwise {lt : α → α → Bool}
    (hcompat : ∀ a b c, lt a b = true → lt c b = false → lt c a = false)
    (hasym : ∀ a b, lt a b = true → lt b a = false) (l : List α) :
    (stableSort lt l).Pairwise (fun a b => lt b a = false) := by
  suffices h : ∀ acc : List α, acc.Pairwise (fun a b => lt b a = false) →
      (l.foldl (fun acc x => insertStable lt x acc) acc).Pairwise
        (fun a b => lt b a = false) by
    exact h [] (by simp)
  induction l with
  | nil => intro acc hacc; simpa using hacc
  | cons x xs ih =>
    intro acc hacc
    simp only [List.foldl_cons]
    exact ih (insertStable lt x acc) (insertStable_pairwise hcompat hasym hacc)

theorem pairwise_getLast? {R : α → α → Prop} :
    ∀ {l : List α} {e : α}, l.Pairwise R → l.getLast? = some e →
      ∀ x ∈ l, x = e ∨ R x e := by
  intro l
  induction l with
  | nil => intro e _ he x hx; simp at hx
  | cons a t ih =>
    intro e hp he x hx
    rcases List.pairwise_cons.mp hp with ⟨ha, ht⟩
    cases t with
    | nil =>
      have hae : a = e := by simpa using he
      have hxa : x = a := by simpa using hx
      exact Or.inl (hxa.trans hae)
    | cons b t2 =>
      have he2 : (b :: t2).getLast? = some e := by
        rw [← he, List.getLast?_cons_cons]
      rcases List.mem_cons.mp hx with rfl | hx2
      · right
        refine ha e ?_
        rcases List.mem_getLast?_eq_getLast (Option.mem_def.mpr he2) with ⟨hne, heq⟩
        rw [heq]
        exact List.getLast_mem hne
      · exact ih ht he2 x hx2

theorem mem_dedupFirst {l : List String} {s : String} :
    s ∈ dedupFirst l ↔ s ∈ l := by
  suffices h : ∀ acc : List String, s ∈ l.foldl
      (fun acc s => if acc.contains s then acc else acc ++ [s]) acc ↔
      s ∈ acc ∨ s ∈ l by
    simpa [dedupFirst] using h []
  induction l with
  | nil => intro acc; simp
  | cons x xs ih =>
    intro acc
    simp only [List.foldl_cons]
    rw [ih]
    constructor
    · rintro (hacc | hxs)
      · split at hacc
        · exact Or.inl hacc
        · rcases List.mem_append.mp hacc with h1 | h1
          · exact Or.inl h1
          · simp at h1; subst h1; simp
      · simp [hxs]
    · rintro (hacc | hxs)
      · left; split
        · exact hacc
        · exact List.mem_append.mpr (Or.inl hacc)
      · rcases List.mem_cons.mp hxs with rfl | h1
        · left; split
          · rename_i hc; simpa using hc
          · simp
        · simp [h1]

-- ───────────────────────────────────────────────────────────────────────────
-- C1 — priority score
-- ───────────────────────────────────────────────────────────────────────────

/-- C1: the claimed formula `severityWeight + 5 × affectedCount − effortPenalty`
with penalty low = 0 fails on the code: for severity `error`, one affected item
and `low` effort the code computes 95, not 105, because the JS fallback
`effortPenalty[effort] || 10` treats the looked-up penalty 0 as missing and
substitutes 10. -/
theorem computeScore_low_effort_bug :
    computeScore "error" 1 "low" = 95 ∧
    ¬ computeScore "error" 1 "low" = 100 + 5 * 1 - 0 := by
  constructor
  · rfl
  · decide

-- ───────────────────────────────────────────────────────────────────────────
-- C9 — field-conflict writers counted per (item, phase) entry
-- ───────────────────────────────────────────────────────────────────────────

/-- Example input of C9: one active scripted trigger covering a before- and an
after-event, writing one field. -/
def c9item : Item :=
  ⟨1, "T1", some "Account", "Apex Trigger", none, true, true, false,
   some ⟨none, some ["before insert", "after update"], some ["Status__c"],
         none, none, none, none⟩⟩

/-- C9: field-conflict writers are (item, phase) entries, not distinct items —
for a single active dual-event scripted trigger writing `Status__c` the audit
emits a field-conflict hazard listing the item twice (phases 2 and 3) and
naming its phase-3 occurrence as the winner. -/
theorem auditOrderOfExecution_writers_per_entry :
    c9item.is_active = true ∧
    (pdEvents c9item).any (fun e => startsWithB e "before") = true ∧
    (pdEvents c9item).any (fun e => startsWithB e "after") = true ∧
    (auditOrderOfExecution [c9item]).risks =
      [⟨"field_conflict", "warning",
        .fieldConflict "Status__c" [("T1", 2), ("T1", 3)] ("T1", 3)⟩] := by
  refine ⟨rfl, by decide, by decide, by decide⟩

-- ───────────────────────────────────────────────────────────────────────────
-- C6 — declarative condition evaluation
-- ───────────────────────────────────────────────────────────────────────────

/-- Example item of C6 (no `foo` attribute exists on an inventory row). -/
def c6item : Item :=
  ⟨3, "X", none, "Apex Trigger", none, true, true, false, none⟩

/-- C6 counterexample: a condition referencing a field absent from the item
does NOT always evaluate to non-match — under `ne` the undefined read differs
from the right-hand value, so the condition matches and a non-empty list of
such conditions evaluates to a match. -/
theorem evaluateConditions_missing_field_matches :
    getAttr c6item "foo" = JSPrim.undefined ∧
    evaluateConditions c6item (some [⟨"foo", "ne", .prim (.str "x")⟩]) = true := by
  exact ⟨rfl, rfl⟩

/-- C6 (amended): condition evaluation is a total function; a null or empty
list never matches and a non-empty list matches exactly when every condition
matches; an unsupported operator never matches; an absent field reads as
`undefined`, so an `eq` condition (against a defined value) and an `in`
condition (over a set without undefined) never match — but `ne` does. -/
theorem evaluateConditions_spec (item : Item) (conds : List Cond) (c : Cond) :
    evaluateConditions item none = false ∧
    evaluateConditions item (some []) = false ∧
    (evaluateConditions item (some conds) = true ↔
      conds ≠ [] ∧ ∀ c₀ ∈ conds, evalCondition item c₀ = true) ∧
    (c.op ∉ (["eq", "ne", "in", "not_in"] : List String) →
      evalCondition item c = false) ∧
    (getAttr item c.field = .undefined → c.op = "eq" → c.value ≠ .prim .undefined →
      evalCondition item c = false) ∧
    (getAttr item c.field = .undefined → c.op = "in" →
      (∀ vs, c.value = .arr vs → JSPrim.undefined ∉ vs) →
      evalCondition item c = false) ∧
    (getAttr item c.field = .undefined → c.op = "ne" → c.value ≠ .prim .undefined →
      evalCondition item c = true) := by
  refine ⟨rfl, rfl, ?_, ?_, ?_, ?_, ?_⟩
  · constructor
    · intro h
      cases conds with
      | nil => simp [evaluateConditions] at h
      | cons c0 cs =>
        refine ⟨by simp, ?_⟩
        simp only [evaluateConditions, List.length_cons] at h
        rw [if_neg (by simp)] at h
        simpa [List.all_eq_true] using h
    · rintro ⟨hne, hall⟩
      cases conds with
      | nil => exact absurd rfl hne
      | cons c0 cs =>
        simp only [evaluateConditions]
        rw [if_neg (by simp)]
        simpa [List.all_eq_true] using hall
  · intro hop
    simp only [List.mem_cons, List.mem_singleton] at hop
    push_neg at hop
    simp only [evalCondition]
    rw [if_neg (by simpa using hop.1), if_neg (by simpa using hop.2.1),
      if_neg (by simpa using hop.2.2.1), if_neg (by simpa using hop.2.2.2)]
  · intro hattr hop hval
    simp only [evalCondition, hattr, hop]
    rw [if_pos (by simp)]
    simpa using fun h => hval h.symm
  · intro hattr hop hvs
    simp only [evalCondition, hattr, hop]
    rw [if_neg (by simp), if_neg (by simp), if_pos (by simp)]
    cases hv : c.value with
    | prim p => simp
    | arr vs => simpa using hvs vs hv
  · intro hattr hop hval
    simp only [evalCondition, hattr, hop]
    rw [if_neg (by simp), if_pos (by simp)]
    simpa using fun h => hval h.symm

/-- C6 witness: the amended theorem applied at a concrete item and an
unsupported-operator condition. -/
theorem evaluateConditions_spec_witness :
    (("regex_match" : String) ∉ (["eq", "ne", "in", "not_in"] : List String)) ∧
    evalCondition c6item ⟨"api_name", "regex_match", .prim (.str "X")⟩ = false := by
  refine ⟨by decide, ?_⟩
  exact (evaluateConditions_spec c6item []
    ⟨"api_name", "regex_match", .prim (.str "X")⟩).2.2.2.1 (by decide)

-- ───────────────────────────────────────────────────────────────────────────
-- C3 — phase-ordering invariant of the execution sequence
-- ───────────────────────────────────────────────────────────────────────────

theorem countP_flatMap (p : β → Bool) (f : α → List β) :
    ∀ l : List α, (l.flatMap f).countP p = (l.map (fun x => (f x).countP p)).sum := by
  intro l
  induction l with
  | nil => simp
  | cons x xs ih => simp [List.flatMap_cons, List.countP_append, ih]

theorem countP_rawEntries (i : Item) (q : Nat → Bool) :
    ∀ items : List Item, (∀ j ∈ items, j.api_name = i.api_name → j = i) →
    (rawEntries items).countP (fun e => e.item.api_name == i.api_name && q e.phase)
      = items.count i * (getExecutionPhases i).countP q := by
  intro items
  induction items with
  | nil => intro _; simp [rawEntries]
  | cons j js ih =>
    intro hname
    have hname2 : ∀ k ∈ js, k.api_name = i.api_name → k = i :=
      fun k hk => hname k (List.mem_cons_of_mem j hk)
    have hsplit : rawEntries (j :: js) =
        (getExecutionPhases j).map (fun p => ⟨j, p⟩) ++ rawEntries js := by
      simp [rawEntries]
    rw [hsplit, List.countP_append, ih hname2, List.countP_map]
    by_cases hji : j = i
    · subst hji
      rw [List.count_cons_self]
      have hpe : List.countP ((fun e : Entry => e.item.api_name == j.api_name && q e.phase) ∘
          (fun p => (⟨j, p⟩ : Entry))) (getExecutionPhases j) =
          List.countP q (getExecutionPhases j) := by
        congr 1
        funext p
        simp
      rw [hpe]
      ring
    · have hjn : ¬(j.api_name = i.api_name) := fun h => hji (hname j (by simp) h)
      have hz : List.countP ((fun e : Entry =>
          e.item.api_name == i.api_name && q e.phase) ∘ (fun p => (⟨j, p⟩ : Entry)))
          (getExecutionPhases j) = 0 := by
        apply List.countP_eq_zero.mpr
        intro p _
        simp [Function.comp, hjn]
      rw [hz, List.count_cons_of_ne (by simpa using Ne.symm hji)]
      omega

theorem countP_sequence (activeItems : List Item) (i : Item) (q : Nat → Bool)
    (hname : ∀ j ∈ activeItems, j.api_name = i.api_name → j = i) :
    (auditOrderOfExecution activeItems).sequence.countP
        (fun s => s.name == i.api_name && q s.phase)
      = activeItems.count i * (getExecutionPhases i).countP q := by
  have h1 : (auditOrderOfExecution activeItems).sequence.countP
      (fun s => s.name == i.api_name && q s.phase) =
      (sortedEntries activeItems).countP
        (fun e => e.item.api_name == i.api_name && q e.phase) := by
    simp only [auditOrderOfExecution]
    rw [List.countP_map]
    rfl
  rw [h1]
  simp only [sortedEntries]
  rw [(stableSort_perm entryLt (rawEntries activeItems)).countP_eq,
    countP_rawEntries i q activeItems hname]

/-- C3: for every active scripted-trigger item whose event set has both a
before- and an after-event, the audited sequence contains that item exactly
once in phase 2 and exactly once in phase 3; an active scripted-trigger item
with no recognized before/after event appears exactly once, in phase 2.
(`activeItems.count i = 1` and the name-uniqueness hypothesis pin down the
item in the snapshot; names are how sequence rows cite items.) -/
theorem auditOrderOfExecution_phase_invariant (activeItems : List Item) (i : Item)
    (hcount : activeItems.count i = 1)
    (hname : ∀ j ∈ activeItems, j.api_name = i.api_name → j = i)
    (htype : i.automation_type = "Apex Trigger") :
    ((pdEvents i).any (fun e => startsWithB e "before") = true →
     (pdEvents i).any (fun e => startsWithB e "after") = true →
      (auditOrderOfExecution activeItems).sequence.countP
          (fun s => s.name == i.api_name && s.phase == 2) = 1 ∧
      (auditOrderOfExecution activeItems).sequence.countP
          (fun s => s.name == i.api_name && s.phase == 3) = 1) ∧
    ((pdEvents i).any (fun e => startsWithB e "before") = false →
     (pdEvents i).any (fun e => startsWithB e "after") = false →
      (auditOrderOfExecution activeItems).sequence.countP
          (fun s => s.name == i.api_name && s.phase == 2) = 1 ∧
      (auditOrderOfExecution activeItems).sequence.countP
          (fun s => s.name == i.api_name && !(s.phase == 2)) = 0) := by
  constructor
  · intro hb ha
    have hph : getExecutionPhases i = [PHASE_APEX_BEFORE, PHASE_APEX_AFTER] := by
      simp [getExecutionPhases, htype, MODERN_FLOW_TYPES, APEX_TYPES, hb, ha]
    constructor
    · rw [countP_sequence activeItems i (fun p => p == 2) hname, hph, hcount]
      rfl
    · rw [countP_sequence activeItems i (fun p => p == 3) hname, hph, hcount]
      rfl
  · intro hb ha
    have hph : getExecutionPhases i = [PHASE_APEX_BEFORE] := by
      simp [getExecutionPhases, htype, MODERN_FLOW_TYPES, APEX_TYPES, hb, ha]
    constructor
    · rw [countP_sequence activeItems i (fun p => p == 2) hname, hph, hcount]
      rfl
    · rw [countP_sequence activeItems i (fun p => !(p == 2)) hname, hph, hcount]
      rfl

/-- C3 witness: the invariant applied to a one-item snapshot whose trigger
covers `before insert` and `after update`. -/
theorem auditOrderOfExecution_phase_invariant_witness :
    (auditOrderOfExecution [⟨7, "TW", some "Case", "Apex Trigger", none, true, true, false,
        some ⟨none, some ["before insert", "after update"], none, none, none, none, none⟩⟩]).sequence.countP
      (fun s => s.name == "TW" && s.phase == 2) = 1 ∧
    (auditOrderOfExecution [⟨7, "TW", some "Case", "Apex Trigger", none, true, true, false,
        some ⟨none, some ["before insert", "after update"], none, none, none, none, none⟩⟩]).sequence.countP
      (fun s => s.name == "TW" && s.phase == 3) = 1 := by
  exact (auditOrderOfExecution_phase_invariant
    [⟨7, "TW", some "Case", "Apex Trigger", none, true, true, false,
      some ⟨none, some ["before insert", "after update"], none, none, none, none, none⟩⟩]
    ⟨7, "TW", some "Case", "Apex Trigger", none, true, true, false,
      some ⟨none, some ["before insert", "after update"], none, none, none, none, none⟩⟩
    (by decide) (by decide) (by decide)).1 (by decide) (by decide)

-- ───────────────────────────────────────────────────────────────────────────
-- C4 — field-conflict hazards: writers and winner
-- ───────────────────────────────────────────────────────────────────────────

theorem mem_undefinedOrderRisks_not_fc {entries : List Entry} {r : Risk}
    (h : r ∈ undefinedOrderRisks entries) :
    ∀ f ws w, r.body ≠ RiskBody.fieldConflict f ws w := by
  intro f ws w hbody
  simp only [undefinedOrderRisks, List.flatMap_cons, List.flatMap_nil,
    List.append_nil] at h
  rw [List.mem_append] at h
  rcases h with h | h <;> split at h <;> simp_all

theorem mem_flowOrderRisks_not_fc {entries : List Entry} {r : Risk}
    (h : r ∈ flowOrderRisks entries) :
    ∀ f ws w, r.body ≠ RiskBody.fieldConflict f ws w := by
  intro f ws w hbody
  simp only [flowOrderRisks, List.flatMap_cons, List.flatMap_nil,
    List.append_nil] at h
  rw [List.mem_append] at h
  rcases h with h | h <;> split at h <;> simp_all

theorem mem_retriggerRisks_not_fc {entries : List Entry} {r : Risk}
    (h : r ∈ retriggerRisks entries) :
    ∀ f ws w, r.body ≠ RiskBody.fieldConflict f ws w := by
  intro f ws w hbody
  simp only [retriggerRisks] at h
  split at h <;> simp_all

theorem mem_pbRetriggerRisks_not_fc {entries : List Entry} {r : Risk}
    (h : r ∈ pbRetriggerRisks entries) :
    ∀ f ws w, r.body ≠ RiskBody.fieldConflict f ws w := by
  intro f ws w hbody
  simp only [pbRetriggerRisks] at h
  split at h
  · split at h <;> simp_all
  · simp_all

theorem mem_fieldConflictRisks {entries : List Entry} {r : Risk}
    (h : r ∈ fieldConflictRisks entries) :
    ∃ fw ∈ fieldPhaseMap entries, ∃ winner : Entry,
      2 ≤ fw.2.length ∧
      (stableSort writerLt fw.2).getLast? = some winner ∧
      r = ⟨"field_conflict", "warning",
        .fieldConflict fw.1
          ((stableSort writerLt fw.2).map (fun e => (e.item.api_name, e.phase)))
          (winner.item.api_name, winner.phase)⟩ := by
  simp only [fieldConflictRisks, List.mem_flatMap] at h
  rcases h with ⟨fw, hfw, hr⟩
  split at hr
  · simp at hr
  · rename_i hlen
    split at hr
    · simp at hr
    · rename_i winner hlast
      simp only [List.mem_singleton] at hr
      exact ⟨fw, hfw, winner, by omega, hlast, hr⟩

theorem upsertAppend_sound {m : List (String × List Entry)} {k : String} {e : Entry}
    {f : String} {es : List Entry} {x : Entry}
    (hm : (f, es) ∈ upsertAppend k e m) (hx : x ∈ es) :
    (∃ es₀, (f, es₀) ∈ m ∧ x ∈ es₀) ∨ (f = k ∧ x = e) := by
  induction m with
  | nil =>
    simp only [upsertAppend, List.mem_singleton, Prod.mk.injEq] at hm
    rcases hm with ⟨rfl, rfl⟩
    simp only [List.mem_singleton] at hx
    exact Or.inr ⟨rfl, hx⟩
  | cons kv rest ih =>
    obtain ⟨k₀, v⟩ := kv
    simp only [upsertAppend] at hm
    split at hm
    · rename_i hk
      rcases List.mem_cons.mp hm with heq | hmem
      · rw [Prod.mk.injEq] at heq
        rcases heq with ⟨rfl, rfl⟩
        rcases List.mem_append.mp hx with hx1 | hx1
        · exact Or.inl ⟨v, by simp, hx1⟩
        · simp only [List.mem_singleton] at hx1
          exact Or.inr ⟨by simpa using hk, hx1⟩
      · exact Or.inl ⟨es, List.mem_cons_of_mem _ hmem, hx⟩
    · rcases List.mem_cons.mp hm with heq | hmem
      · exact Or.inl ⟨es, heq ▸ List.mem_cons_self _ _, hx⟩
      · rcases ih hmem with ⟨es₀, hes₀, hx0⟩ | h2
        · exact Or.inl ⟨es₀, List.mem_cons_of_mem _ hes₀, hx0⟩
        · exact Or.inr h2

theorem fieldPhaseMap_sound (entries : List Entry) :
    ∀ fw ∈ fieldPhaseMap entries, ∀ e ∈ fw.2,
      fw.1 ∈ pdFieldUpdateFields e.item ∧ e ∈ entries := by
  have sub : ∀ (e0 : Entry), e0 ∈ entries →
      ∀ (fs : List String), (∀ f₀ ∈ fs, f₀ ∈ pdFieldUpdateFields e0.item) →
      ∀ (m : List (String × List Entry)),
      (∀ fw ∈ m, ∀ e ∈ fw.2, fw.1 ∈ pdFieldUpdateFields e.item ∧ e ∈ entries) →
      ∀ fw ∈ fs.foldl (fun acc f₀ => upsertAppend f₀ e0 acc) m, ∀ e ∈ fw.2,
        fw.1 ∈ pdFieldUpdateFields e.item ∧ e ∈ entries := by
    intro e0 he0 fs
    induction fs with
    | nil => intro _ m hm; simpa using hm
    | cons f0 fsr ih =>
      intro hfs m hm
      simp only [List.foldl_cons]
      apply ih (fun f₀ hf => hfs f₀ (List.mem_cons_of_mem f0 hf))
      intro fw hfw e he
      obtain ⟨fwk, fwv⟩ := fw
      rcases upsertAppend_sound hfw he with ⟨es₀, hes₀, he0'⟩ | ⟨rfl, rfl⟩
      · exact hm (fwk, es₀) hes₀ e he0'
      · exact ⟨hfs fwk (by simp), he0⟩
  have main : ∀ (l : List Entry), (∀ e ∈ l, e ∈ entries) →
      ∀ (m : List (String × List Entry)),
      (∀ fw ∈ m, ∀ e ∈ fw.2, fw.1 ∈ pdFieldUpdateFields e.item ∧ e ∈ entries) →
      ∀ fw ∈ l.foldl addFieldsOf m, ∀ e ∈ fw.2,
        fw.1 ∈ pdFieldUpdateFields e.item ∧ e ∈ entries := by
    intro l
    induction l with
    | nil => intro _ m hm; simpa using hm
    | cons e0 rest ih =>
      intro hl m hm
      simp only [List.foldl_cons]
      apply ih (fun e he => hl e (List.mem_cons_of_mem e0 he))
      exact sub e0 (hl e0 (by simp)) (pdFieldUpdateFields e0.item) (fun f₀ hf => hf) m hm
  exact main entries (fun e he => he) [] (by simp)

/-- C4: every field-conflict hazard for a field `f` names only writers that
are (item, phase) entries of the audit whose item writes `f` in its parsed
metadata, the winner is one of the writers, and the winner's phase is the
numerically highest among all writer entries. -/
theorem auditOrderOfExecution_field_conflict (activeItems : List Item) (r : Risk)
    (f : String) (writers : List (String × Nat)) (winner : String × Nat)
    (hr : r ∈ (auditOrderOfExecution activeItems).risks)
    (hbody : r.body = RiskBody.fieldConflict f writers winner) :
    (∀ w ∈ writers, ∃ e : Entry, e ∈ rawEntries activeItems ∧
        e.item.api_name = w.1 ∧ e.phase = w.2 ∧ f ∈ pdFieldUpdateFields e.item) ∧
    winner ∈ writers ∧ (∀ w ∈ writers, w.2 ≤ winner.2) := by
  have hr2 : r ∈ fieldConflictRisks (sortedEntries activeItems) := by
    simp only [auditOrderOfExecution] at hr
    rcases List.mem_append.mp hr with hr' | hr'
    rotate_left
    · exact hr'
    rcases List.mem_append.mp hr' with hr'' | hr''
    rotate_left
    · exact absurd hbody (mem_pbRetriggerRisks_not_fc hr'' f writers winner)
    rcases List.mem_append.mp hr'' with hr3 | hr3
    rotate_left
    · exact absurd hbody (mem_retriggerRisks_not_fc hr3 f writers winner)
    rcases List.mem_append.mp hr3 with hr4 | hr4
    · exact absurd hbody (mem_undefinedOrderRisks_not_fc hr4 f writers winner)
    · exact absurd hbody (mem_flowOrderRisks_not_fc hr4 f writers winner)
  rcases mem_fieldConflictRisks hr2 with ⟨fw, hfw, wE, hlen, hlast, heq⟩
  rw [heq] at hbody
  simp only [RiskBody.fieldConflict.injEq] at hbody
  rcases hbody with ⟨rfl, rfl, rfl⟩
  have hsound := fieldPhaseMap_sound (sortedEntries activeItems) fw hfw
  have hperm := stableSort_perm writerLt fw.2
  have hperm2 := stableSort_perm entryLt (rawEntries activeItems)
  refine ⟨?_, ?_, ?_⟩
  · intro w hw
    rcases List.mem_map.mp hw with ⟨e, he, hpe⟩
    have he2 : e ∈ fw.2 := hperm.mem_iff.mp he
    rcases hsound e he2 with ⟨hfield, hent⟩
    exact ⟨e, hperm2.mem_iff.mp hent, by rw [← hpe], by rw [← hpe], hfield⟩
  · have hwmem : wE ∈ stableSort writerLt fw.2 := by
      rcases List.mem_getLast?_eq_getLast (Option.mem_def.mpr hlast) with ⟨hne, hg⟩
      rw [hg]
      exact List.getLast_mem hne
    exact List.mem_map_of_mem _ hwmem
  · intro w hw
    rcases List.mem_map.mp hw with ⟨e, he, hpe⟩
    have hpw : (stableSort writerLt fw.2).Pairwise (fun a b => writerLt b a = false) := by
      apply stableSort_pairwise
      · intro a b c hab hcb
        simp only [writerLt, decide_eq_true_eq] at hab
        simp only [writerLt, decide_eq_false_iff_not] at hcb ⊢
        omega
      · intro a b hab
        simp only [writerLt, decide_eq_true_eq] at hab
        simp only [writerLt, decide_eq_false_iff_not]
        omega
    rcases pairwise_getLast? hpw hlast e he with rfl | hle
    · rw [← hpe]
    · simp only [writerLt, decide_eq_false_iff_not] at hle
      rw [← hpe]
      simp only
      omega

/-- Example items of the C4 witness: a legacy rule and an after-save flow both
writing `F1`. -/
def c4wfr : Item :=
  ⟨11, "WFR9", some "Lead", "Workflow Rule", none, true, true, false,
   some ⟨none, none, some ["F1"], none, none, none, none⟩⟩

def c4flow : Item :=
  ⟨12, "Flow9", some "Lead", "Record-Triggered Flow", some "after save", true, true, false,
   some ⟨none, none, some ["F1"], none, none, none, none⟩⟩

/-- C4 witness: the theorem applied to the two-writer snapshot above, where
the emitted conflict names the phase-4 rule and the phase-6 flow and the flow
wins. -/
theorem auditOrderOfExecution_field_conflict_witness :
    (("Flow9", (6 : Nat)) ∈ [("WFR9", (4 : Nat)), ("Flow9", (6 : Nat))]) ∧
    (∀ w ∈ [("WFR9", (4 : Nat)), ("Flow9", (6 : Nat))], w.2 ≤ 6) := by
  have h := auditOrderOfExecution_field_conflict [c4wfr, c4flow]
    ⟨"field_conflict", "warning",
      .fieldConflict "F1" [("WFR9", 4), ("Flow9", 6)] ("Flow9", 6)⟩
    "F1" [("WFR9", 4), ("Flow9", 6)] ("Flow9", 6) (by decide) rfl
  exact ⟨h.2.1, h.2.2⟩

-- ───────────────────────────────────────────────────────────────────────────
-- C8 — branching-process re-trigger hazard
-- ───────────────────────────────────────────────────────────────────────────

/-- Example items of C8: one legacy branching process writing `F2` and one
before-event scripted trigger on the same object. -/
def c8pb : Item :=
  ⟨21, "PB1", some "Opportunity", "Process Builder", none, true, true, false,
   some ⟨none, none, some ["F2"], none, none, none, none⟩⟩

def c8apex : Item :=
  ⟨22, "T2", some "Opportunity", "Apex Trigger", none, true, true, false,
   some ⟨none, some ["before insert"], none, none, none, none, none⟩⟩

/-- C8 counterexample: with a field-writing phase-5 item and a phase-2 scripted
entry present, the emitted branching-process re-trigger hazard has severity
`warning`, not the `high` severity of the phase-4 cascade the claim asserts. -/
theorem pbRetrigger_severity_not_high :
    ((auditOrderOfExecution [c8pb, c8apex]).risks.map (fun r => (r.rtype, r.severity)))
      = [("pb_retrigger", "warning")] ∧
    ¬ (("warning" : String) = "high") := by
  exact ⟨by decide, by decide⟩

/-- C8 (amended): whenever at least one phase-5 item and at least one
phase-2/3 scripted entry are present, the audit emits a `pb_retrigger` hazard
of the same shape as the phase-4 cascade but at `warning` severity: when some
phase-5 item has captured field writes it names those writers, the deduped
re-fired scripted items, the first 3 deduped written fields and the overflow
count; otherwise it degrades to the generic warning without named fields. -/
theorem auditOrderOfExecution_pb_retrigger (activeItems : List Item)
    (hpb : 0 < (phaseGroup (sortedEntries activeItems) PHASE_PROCESS_BUILDER).length)
    (hapex : 0 < (apexEntriesOf (sortedEntries activeItems)).length) :
    (0 < ((phaseGroup (sortedEntries activeItems) PHASE_PROCESS_BUILDER).filter
        (fun e => (pdFieldUpdateFields e.item).length > 0)).length →
      (⟨"pb_retrigger", "warning",
        .pbRetriggerSpecific
          (((phaseGroup (sortedEntries activeItems) PHASE_PROCESS_BUILDER).filter
              (fun e => (pdFieldUpdateFields e.item).length > 0)).map
            (fun e => e.item.api_name))
          (fieldListShown (dedupFirst
            (((phaseGroup (sortedEntries activeItems) PHASE_PROCESS_BUILDER).filter
                (fun e => (pdFieldUpdateFields e.item).length > 0)).flatMap
              (fun e => pdFieldUpdateFields e.item)))).1
          (fieldListShown (dedupFirst
            (((phaseGroup (sortedEntries activeItems) PHASE_PROCESS_BUILDER).filter
                (fun e => (pdFieldUpdateFields e.item).length > 0)).flatMap
              (fun e => pdFieldUpdateFields e.item)))).2
          (dedupFirst ((apexEntriesOf (sortedEntries activeItems)).map
            (fun e => e.item.api_name)))⟩ : Risk)
        ∈ (auditOrderOfExecution activeItems).risks) ∧
    (((phaseGroup (sortedEntries activeItems) PHASE_PROCESS_BUILDER).filter
        (fun e => (pdFieldUpdateFields e.item).length > 0)).length = 0 →
      (⟨"pb_retrigger", "warning",
        .pbRetriggerGeneric
          ((phaseGroup (sortedEntries activeItems) PHASE_PROCESS_BUILDER).map
            (fun e => e.item.api_name))
          (dedupFirst ((apexEntriesOf (sortedEntries activeItems)).map
            (fun e => e.item.api_name)))⟩ : Risk)
        ∈ (auditOrderOfExecution activeItems).risks) := by
  have hmem : ∀ x : Risk, x ∈ pbRetriggerRisks (sortedEntries activeItems) →
      x ∈ (auditOrderOfExecution activeItems).risks := by
    intro x hx
    simp only [auditOrderOfExecution]
    apply List.mem_append_left
    apply List.mem_append_right
    exact hx
  constructor
  · intro hupd
    apply hmem
    simp only [pbRetriggerRisks]
    rw [if_pos (by simp [hpb, hapex]), if_pos (by simpa using hupd)]
    simp
  · intro hupd
    apply hmem
    simp only [pbRetriggerRisks]
    rw [if_pos (by simp [hpb, hapex]), if_neg (by simp [hupd])]
    simp

/-- C8 witness: the amended theorem applied to the two-item snapshot above. -/
theorem auditOrderOfExecution_pb_retrigger_witness :
    (⟨"pb_retrigger", "warning",
      .pbRetriggerSpecific ["PB1"] ["F2"] 0 ["T2"]⟩ : Risk)
      ∈ (auditOrderOfExecution [c8pb, c8apex]).risks := by
  have h := (auditOrderOfExecution_pb_retrigger [c8pb, c8apex]
    (by decide) (by decide)).1 (by decide)
  simpa using h

-- ───────────────────────────────────────────────────────────────────────────
-- C5 — rule-evaluation failure isolation
-- ───────────────────────────────────────────────────────────────────────────

/-- Example inventory of C5. -/
def c5item1 : Item := ⟨1, "A1", some "Account", "Apex Trigger", none, true, true, false, none⟩

def c5item2 : Item := ⟨2, "A2", some "Account", "Apex Trigger", none, true, true, false, none⟩

/-- A heuristic that throws for the first item and fires for the second. -/
def c5check : PerItemCheck :=
  fun item _ => if item.id == 1 then .error "boom" else .ok true

def c5checks : Checks :=
  ⟨fun rid => if rid == "R1" then some c5check else none, fun _ => none⟩

def c5rule : Rule := ⟨"R1", "risk", "warning", "per_item", [], none, "msg"⟩

def c5profile : Profile := ⟨none, ["risk"], [], none⟩

/-- C5 counterexample: rule R1's heuristic raises during the pass (on the
first item), yet the rule still contributes one finding (for the second item)
— contradicting "that rule contributes zero findings to the pass". -/
theorem runAnalysis_throwing_rule_still_contributes :
    c5check c5item1 c5profile = Except.error "boom" ∧
    runAnalysis c5checks [c5item1, c5item2] [c5rule] c5profile =
      [⟨"R1", "warning", some 2, some "A2", some "Account", "msg"⟩] := by
  exact ⟨rfl, by decide⟩

theorem runAnalysis_append (checks : Checks) (inv : List Item) (p : Profile)
    (pre post : List Rule) (r : Rule) :
    runAnalysis checks inv (pre ++ r :: post) p =
      runAnalysis checks inv pre p ++
      (if p.active_rule_layers.contains r.layer &&
          !(p.suppressed_rule_ids.contains r.id) then
        ruleFindings checks inv p r else []) ++
      runAnalysis checks inv post p := by
  simp only [runAnalysis, List.filter_append, List.filter_cons]
  split
  · simp [List.flatMap_append]
  · simp [List.flatMap_append]

theorem perItemFindings_all_error (checks : Checks) (inv : List Item) (p : Profile)
    (r : Rule) (f : PerItemCheck) (hf : checks.perItem r.id = some f)
    (hthrow : ∀ item ∈ inv, ∃ msg, f item p = Except.error msg) :
    perItemFindings checks inv p r = [] := by
  induction inv with
  | nil => rfl
  | cons item rest ih =>
    have hstep : perItemFindings checks (item :: rest) p r =
        (if r.applies_to.length > 0 && !(r.applies_to.contains item.automation_type)
         then ([] : List Finding)
         else
          match
            (match checks.perItem r.id with
             | some f => f item p
             | none => .ok (evaluateConditions item r.conditions)) with
          | .ok true =>
            [⟨r.id, r.severity, some item.id, some item.api_name, item.object_name,
              applyTemplate r.recommendation_template item⟩]
          | .ok false => []
          | .error _ => []) ++ perItemFindings checks rest p r := by
      simp [perItemFindings]
    rw [hstep, ih (fun i hi => hthrow i (List.mem_cons_of_mem item hi))]
    rcases hthrow item (by simp) with ⟨msg, hmsg⟩
    rw [hf]
    split
    · simp
    · simp [hmsg]

/-- C5 (amended): a rule whose bound heuristic raises on every evaluation it
receives in a pass (every inventory item for a per-item rule, the single
whole-inventory invocation for a cross-item rule) contributes zero findings,
and the findings of the pass equal exactly those of the pass without that
rule; a per-item heuristic raising on only some items still contributes its
findings for the items where it matches (see the counterexample), and no such
error ever escapes the pass. -/
theorem runAnalysis_rule_failure_isolated (checks : Checks) (inv : List Item)
    (p : Profile) (pre post : List Rule) (r : Rule)
    (hfail :
      (r.check_type = "per_item" ∧ ∃ f, checks.perItem r.id = some f ∧
        ∀ item ∈ inv, ∃ msg, f item p = Except.error msg) ∨
      (¬ (r.check_type = "per_item") ∧ ∃ g, checks.crossItem r.id = some g ∧
        ∃ msg, g inv p = Except.error msg)) :
    ruleFindings checks inv p r = [] ∧
    runAnalysis checks inv (pre ++ r :: post) p =
      runAnalysis checks inv (pre ++ post) p := by
  have hzero : ruleFindings checks inv p r = [] := by
    rcases hfail with ⟨hper, f, hf, hthrow⟩ | ⟨hcross, g, hg, msg, hmsg⟩
    · simp only [ruleFindings]
      rw [if_pos (by simp [hper])]
      exact perItemFindings_all_error checks inv p r f hf hthrow
    · simp only [ruleFindings]
      rw [if_neg (by simpa using hcross)]
      simp [crossItemFindings, hg, hmsg]
  refine ⟨hzero, ?_⟩
  rw [runAnalysis_append, hzero]
  have hsplit2 : runAnalysis checks inv (pre ++ post) p =
      runAnalysis checks inv pre p ++ runAnalysis checks inv post p := by
    simp [runAnalysis, List.filter_append, List.flatMap_append]
  rw [hsplit2]
  split <;> simp

/-- Healthy companion rule for the C5 witness. -/
def c5ruleGood : Rule := ⟨"GOOD", "risk", "info", "per_item", [], none, "ok"⟩

def c5ruleFail : Rule := ⟨"RF", "risk", "warning", "per_item", [], none, "bad"⟩

/-- Check table of the C5 witness: `GOOD` always fires, `RF` always throws. -/
def c5checksW : Checks :=
  ⟨fun rid =>
    if rid == "GOOD" then some (fun _ _ => .ok true)
    else if rid == "RF" then some (fun _ _ => .error "boom")
    else none,
   fun _ => none⟩

/-- C5 witness: dropping the always-throwing rule leaves the pass's findings
unchanged. -/
theorem runAnalysis_rule_failure_isolated_witness :
    runAnalysis c5checksW [c5item1, c5item2] [c5ruleGood, c5ruleFail] c5profile =
      runAnalysis c5checksW [c5item1, c5item2] [c5ruleGood] c5profile := by
  exact (runAnalysis_rule_failure_isolated c5checksW [c5item1, c5item2] c5profile
    [c5ruleGood] [] c5ruleFail
    (Or.inl ⟨rfl, fun _ _ => .error "boom", rfl,
      fun item _ => ⟨"boom", rfl⟩⟩)).2

-- ───────────────────────────────────────────────────────────────────────────
-- C2 — classifier totality and clean-object silence
-- ───────────────────────────────────────────────────────────────────────────

theorem keys_upsertPush (k : String) (x : α) :
    ∀ m : List (String × List α), (upsertPush k x m).map Prod.fst =
      if k ∈ m.map Prod.fst then m.map Prod.fst else m.map Prod.fst ++ [k] := by
  intro m
  induction m with
  | nil => simp [upsertPush]
  | cons kv rest ih =>
    obtain ⟨k₀, v⟩ := kv
    simp only [upsertPush]
    split
    · rename_i hk
      have hk2 : k₀ = k := by simpa using hk
      subst hk2
      simp
    · rename_i hk
      have hk2 : ¬(k₀ = k) := by simpa using hk
      simp only [List.map_cons]
      rw [ih]
      by_cases hmem : k ∈ rest.map Prod.fst
      · rw [if_pos hmem, if_pos (by simp [hmem])]
      · rw [if_neg hmem, if_neg (by
          simp only [List.map_cons, List.mem_cons]
          rintro (h | h)
          · exact hk2 h.symm
          · exact hmem h)]
        simp

theorem nodup_keys_upsertPush (k : String) (x : α) (m : List (String × List α))
    (h : (m.map Prod.fst).Nodup) : ((upsertPush k x m).map Prod.fst).Nodup := by
  rw [keys_upsertPush]
  split
  · exact h
  · rename_i hnot
    simp [List.nodup_append, h, hnot]

theorem nodup_keys_groupByObject (inventory : List Item) :
    ((groupByObject inventory).map Prod.fst).Nodup := by
  suffices h : ∀ (l : List Item) (m : List (String × List Item)),
      (m.map Prod.fst).Nodup →
      ((l.foldl (fun m item =>
        if item.automation_type == "Apex Class" then m
        else upsertPush (objectKeyOf item) item m) m).map Prod.fst).Nodup by
    exact h inventory [] (by simp)
  intro l
  induction l with
  | nil => intro m hm; simpa using hm
  | cons item rest ih =>
    intro m hm
    simp only [List.foldl_cons]
    apply ih
    split
    · exact hm
    · exact nodup_keys_upsertPush _ _ m hm

theorem lookupAssoc_of_mem_nodup {m : List (String × α)} {k : String} {v : α}
    (hnd : (m.map Prod.fst).Nodup) (hmem : (k, v) ∈ m) :
    lookupAssoc m k = some v := by
  induction m with
  | nil => simp at hmem
  | cons kv rest ih =>
    obtain ⟨k₀, v₀⟩ := kv
    rcases List.mem_cons.mp hmem with heq | hmem2
    · rw [Prod.mk.injEq] at heq
      rcases heq with ⟨rfl, rfl⟩
      simp [lookupAssoc]
    · have hk : ¬(k₀ = k) := by
        intro hkk
        subst hkk
        have : k₀ ∈ rest.map Prod.fst := by
          exact List.mem_map_of_mem Prod.fst hmem2
        simp only [List.map_cons, List.nodup_cons] at hnd
        exact hnd.1 this
      have hnd2 : (rest.map Prod.fst).Nodup := by
        simp only [List.map_cons, List.nodup_cons] at hnd
        exact hnd.2
      have hfind : List.find? (fun kv => kv.1 == k) ((k₀, v₀) :: rest) =
          List.find? (fun kv => kv.1 == k) rest :=
        List.find?_cons_of_neg _ (by simpa using hk)
      simp only [lookupAssoc] at ih ⊢
      rw [hfind]
      exact ih hnd2 hmem2

theorem buildGlobalRecs_object_name_none (allItems : List Item)
    (byObject : List (String × List Item)) :
    ∀ g ∈ buildGlobalRecs allItems byObject, g.object_name = none := by
  intro g hg
  simp only [buildGlobalRecs] at hg
  rcases List.mem_append.mp hg with hg1 | hg3
  · rcases List.mem_append.mp hg1 with hg1 | hg2
    · split at hg1 <;> simp_all
    · split at hg2 <;> simp_all
  · rcases List.mem_map.mp hg3 with ⟨kv, _, heq⟩
    rw [← heq]

theorem objectRecFor_shape (inventory : List Item) (findings : List Finding)
    (preference : String) (kv : String × List Item) (rec : Reco)
    (hrec : rec ∈ objectRecFor inventory findings preference kv) :
    rec.object_name = some kv.1 ∧ ¬(kv.1 = "__global__") ∧
    ¬(classifyStack (kv.2.filter (fun i => i.is_active)) = "clean") := by
  simp only [objectRecFor] at hrec
  split at hrec
  · simp at hrec
  · rename_i hkey
    split at hrec
    · simp at hrec
    · split at hrec
      · simp at hrec
      · rename_i hclean
        simp only [List.mem_singleton] at hrec
        subst hrec
        exact ⟨rfl, by simpa using hkey, by simpa using hclean⟩

/-- C2: `classifyStack` always returns one of the classifier's 8 decision-table
outcomes (the 7 pattern tags or `clean`), and an object whose active items
classify as `clean` yields no per-object recommendation: every generated
recommendation either is org-level (null object) or names a non-clean object. -/
theorem classifyStack_total_and_clean_silent :
    (∀ activeItems : List Item, activeItems ≠ [] →
      classifyStack activeItems ∈
        ["deprecated_plus_mixed", "deprecated_plus_flow", "deprecated_plus_apex",
         "deprecated_only", "flow_and_apex", "apex_fragmented", "flow_fragmented",
         "clean"]) ∧
    (∀ (inventory : List Item) (findings : List Finding) (profile : Profile)
       (o : String),
      classifyStack (((lookupAssoc (groupByObject inventory) o).getD []).filter
        (fun i => i.is_active)) = "clean" →
      ∀ rec ∈ generateRecommendations inventory findings profile,
        rec.object_name ≠ some o) := by
  constructor
  · intro activeItems _
    simp only [classifyStack]
    repeat' split
    all_goals simp
  · intro inventory findings profile o hclean rec hrec hname
    have hunfold : generateRecommendations inventory findings profile =
        stableSort (fun a b : Reco => b.priority_score < a.priority_score)
          ((groupByObject inventory).flatMap (objectRecFor inventory findings
            (match profile.automation_preference with
             | some p => if p == "" then "flow_first" else p
             | none => "flow_first")) ++
           (buildGlobalRecs inventory (groupByObject inventory)).map (fun r =>
            ⟨r.object_name, r.pattern, r.severity, r.effort_estimate,
             computeScore r.severity r.affected_ids.length r.effort_estimate,
             r.affected_ids, r.steps⟩)) := rfl
    have hrec2 : rec ∈
        (groupByObject inventory).flatMap (objectRecFor inventory findings
          (match profile.automation_preference with
           | some p => if p == "" then "flow_first" else p
           | none => "flow_first")) ++
        (buildGlobalRecs inventory (groupByObject inventory)).map (fun r =>
          ⟨r.object_name, r.pattern, r.severity, r.effort_estimate,
           computeScore r.severity r.affected_ids.length r.effort_estimate,
           r.affected_ids, r.steps⟩) := by
      rw [hunfold] at hrec
      exact (stableSort_perm _ _).mem_iff.mp hrec
    rcases List.mem_append.mp hrec2 with hobj | hglob
    · rcases List.mem_flatMap.mp hobj with ⟨kv, hkv, hrec3⟩
      rcases objectRecFor_shape _ _ _ kv rec hrec3 with ⟨hon, _, hnc⟩
      obtain ⟨k, items⟩ := kv
      have hko : k = o := by
        rw [hon] at hname
        simpa using hname
      subst hko
      have hlook : lookupAssoc (groupByObject inventory) k = some items :=
        lookupAssoc_of_mem_nodup (nodup_keys_groupByObject inventory) hkv
      rw [hlook] at hclean
      exact hnc hclean
    · rcases List.mem_map.mp hglob with ⟨g, hg, heq⟩
      have hnone := buildGlobalRecs_object_name_none inventory
        (groupByObject inventory) g hg
      rw [← heq] at hname
      simp only at hname
      rw [hnone] at hname
      simp at hname

/-- Example items of the C2 witness: a lone flow keeps Account clean while a
legacy rule on Lead produces that object's (non-clean) recommendation. -/
def c2flow : Item :=
  ⟨31, "FlowA", some "Account", "Record-Triggered Flow", some "after save", true, true,
   false, none⟩

def c2wfr : Item :=
  ⟨32, "WFRL", some "Lead", "Workflow Rule", none, true, true, false, none⟩

/-- C2 witness: the totality part applied to the one-flow stack, and the
silence part applied to the clean Account object against the recommendation
generated for Lead. -/
theorem classifyStack_total_and_clean_silent_witness :
    classifyStack [c2flow] ∈
      ["deprecated_plus_mixed", "deprecated_plus_flow", "deprecated_plus_apex",
       "deprecated_only", "flow_and_apex", "apex_fragmented", "flow_fragmented",
       "clean"] ∧
    (⟨some "Lead", "deprecated_only", "info", "medium", 5, [32],
      [Step.auditDeprecatedEmail ["WFRL"] "Lead", Step.buildNewFlow "Lead",
       Step.testNewTarget "Record-Triggered Flow" ["WFRL"],
       Step.deactivateArchive ["WFRL"]]⟩ : Reco).object_name ≠ some "Account" := by
  constructor
  · exact classifyStack_total_and_clean_silent.1 [c2flow] (by decide)
  · exact classifyStack_total_and_clean_silent.2 [c2flow, c2wfr] []
      ⟨none, ["platform"], [], none⟩ "Account" (by decide) _ (by decide)

-- ───────────────────────────────────────────────────────────────────────────
-- C7 — shape of the step lists
-- ───────────────────────────────────────────────────────────────────────────

/-- Steps that are warning lines: audit risks, handler warnings, and the
fallback overlap warnings. -/
def isWarningStep : Step → Bool
  | .riskWarning _ => true
  | .handlerWarning _ => true
  | .overlapWarning _ _ => true
  | _ => false

/-- The execution-sequence listing step. -/
def isSeqListingStep : Step → Bool
  | .seqListing _ => true
  | _ => false

/-- Audit/review steps that precede any consolidation instruction. -/
def isAuditStep : Step → Bool
  | .auditDeprecatedEmail _ _ => true
  | .auditExistingFlows _ _ _ => true
  | .auditDeprecatedActions _ => true
  | .reviewExistingFlows _ _ _ => true
  | .auditApexMap _ _ _ => true
  | .fullAuditComplex _ _ => true
  | .auditApexAsync _ _ => true
  | .auditFlowsElements _ => true
  | .auditSharedFlows _ _ _ => true
  | .auditApexUndefined _ _ _ => true
  | .auditFlowsCoexist _ => true
  | .auditApexCoexist _ _ => true
  | _ => false

/-- Prelude steps: everything that legitimately precedes the consolidation
instructions (audits, the sequence listing, warning lines). -/
def isPreludeStep (s : Step) : Bool :=
  isAuditStep s || isSeqListingStep s || isWarningStep s

/-- The mandatory deactivate/delete-only-after-testing closers. -/
def isDeactivateStep : Step → Bool
  | .deactivateArchive _ => true
  | .deactivateOnce _ => true
  | .deactivateMaybeRedundant _ _ => true
  | .deactivateVerified _ => true
  | .deactivateRedundantFlows => true
  | .deleteOrDeactivateTriggers => true
  | _ => false

/-- Ordering discipline of a step list: once a non-prelude (instruction) step
has occurred, no sequence listing or warning line follows. -/
def stepRW (x y : Step) : Prop :=
  isPreludeStep x = false → (isSeqListingStep y || isWarningStep y) = false

/-- Sequence-listing part of `buildSteps` when an audit is supplied. -/
def seqPartOf (a : Audit) : List Step :=
  match formatSequenceStep a.sequence with
  | some s => [s]
  | none => []

theorem pairwise_RW_of_all_prelude (l : List Step)
    (h : ∀ s ∈ l, isPreludeStep s = true) : l.Pairwise stepRW := by
  induction l with
  | nil => exact List.Pairwise.nil
  | cons x xs ih =>
    refine List.pairwise_cons.mpr ⟨?_, ih (fun s hs => h s (List.mem_cons_of_mem x hs))⟩
    intro y _ hfalse
    rw [h x (by simp)] at hfalse
    cases hfalse

theorem pairwise_RW_of_split (pre post : List Step)
    (hpre : ∀ s ∈ pre, isPreludeStep s = true)
    (hpost : ∀ s ∈ post, isSeqListingStep s = false ∧ isWarningStep s = false) :
    (pre ++ post).Pairwise stepRW := by
  rw [List.pairwise_append]
  refine ⟨pairwise_RW_of_all_prelude pre hpre, ?_, ?_⟩
  · induction post with
    | nil => exact List.Pairwise.nil
    | cons x xs ih =>
      refine List.pairwise_cons.mpr
        ⟨?_, ih (fun s hs => hpost s (List.mem_cons_of_mem x hs))⟩
      intro y hy _
      rcases hpost y (List.mem_cons_of_mem x hy) with ⟨h1, h2⟩
      simp [h1, h2]
  · intro a _ b hb _
    rcases hpost b hb with ⟨h1, h2⟩
    simp [h1, h2]

theorem seqPartOf_mem {a : Audit} {s : Step} (h : s ∈ seqPartOf a) :
    s = Step.seqListing a.sequence ∧ 2 ≤ a.sequence.length := by
  by_cases hlen : a.sequence.length ≤ 1
  · simp [seqPartOf, formatSequenceStep, hlen] at h
  · simp only [seqPartOf, formatSequenceStep, if_neg hlen, List.mem_singleton] at h
    exact ⟨h, by omega⟩

theorem seqPartOf_eq_of_le {a : Audit} (h : 2 ≤ a.sequence.length) :
    seqPartOf a = [Step.seqListing a.sequence] := by
  simp only [seqPartOf, formatSequenceStep]
  rw [if_neg (by omega)]

/-- Normal form of a conforming `buildSteps` branch: audits, the optional
sequence listing, more audits, the warning lines, then the instruction tail.
Yields the listing-membership characterization, the final step, and (when the
leading segments are prelude-only) the ordering discipline. -/
theorem normal_form_props (l₁ l₂ warn post : List Step) (a : Audit)
    (h₁l : ∀ s ∈ l₁, isSeqListingStep s = false)
    (h₂l : ∀ s ∈ l₂, isSeqListingStep s = false)
    (hwl : ∀ s ∈ warn, isSeqListingStep s = false)
    (hpost : ∀ s ∈ post, isSeqListingStep s = false ∧ isWarningStep s = false)
    (hpostne : post ≠ []) :
    (Step.seqListing a.sequence ∈ l₁ ++ (seqPartOf a ++ (l₂ ++ (warn ++ post))) ↔
      2 ≤ a.sequence.length) ∧
    (l₁ ++ (seqPartOf a ++ (l₂ ++ (warn ++ post)))).getLast? = post.getLast? ∧
    ((∀ s ∈ l₁, isPreludeStep s = true) → (∀ s ∈ l₂, isPreludeStep s = true) →
     (∀ s ∈ warn, isPreludeStep s = true) →
      (l₁ ++ (seqPartOf a ++ (l₂ ++ (warn ++ post)))).Pairwise stepRW) := by
  refine ⟨?_, ?_, ?_⟩
  · constructor
    · intro hmem
      rcases List.mem_append.mp hmem with h | h
      · exact absurd (h₁l _ h) (by simp [isSeqListingStep])
      rcases List.mem_append.mp h with h | h
      · exact (seqPartOf_mem h).2
      rcases List.mem_append.mp h with h | h
      · exact absurd (h₂l _ h) (by simp [isSeqListingStep])
      rcases List.mem_append.mp h with h | h
      · exact absurd (hwl _ h) (by simp [isSeqListingStep])
      · exact absurd (hpost _ h).1 (by simp [isSeqListingStep])
    · intro hlen
      rw [seqPartOf_eq_of_le hlen]
      simp
  · rw [List.getLast?_append_of_ne_nil _ (by simp [hpostne]),
      List.getLast?_append_of_ne_nil _ (by simp [hpostne]),
      List.getLast?_append_of_ne_nil _ (by simp [hpostne]),
      List.getLast?_append_of_ne_nil _ hpostne]
  · intro hp1 hp2 hpw
    have hassoc : l₁ ++ (seqPartOf a ++ (l₂ ++ (warn ++ post))) =
        (l₁ ++ seqPartOf a ++ l₂ ++ warn) ++ post := by
      simp [List.append_assoc]
    rw [hassoc]
    apply pairwise_RW_of_split
    · intro s hs
      rcases List.mem_append.mp hs with hs | hs
      rotate_left
      · exact hpw s hs
      rcases List.mem_append.mp hs with hs | hs
      rotate_left
      · exact hp2 s hs
      rcases List.mem_append.mp hs with hs | hs
      · exact hp1 s hs
      · rw [(seqPartOf_mem hs).1]
        rfl
    · exact hpost

theorem warnSteps_no_listing (a : Audit) (hw : List HandlerWarning) :
    ∀ s ∈ a.risks.map Step.riskWarning ++ hw.map Step.handlerWarning,
      isSeqListingStep s = false := by
  intro s hs
  rcases List.mem_append.mp hs with h | h <;>
    (rcases List.mem_map.mp h with ⟨x, _, rfl⟩; rfl)

theorem warnSteps_prelude (a : Audit) (hw : List HandlerWarning) :
    ∀ s ∈ a.risks.map Step.riskWarning ++ hw.map Step.handlerWarning,
      isPreludeStep s = true := by
  intro s hs
  rcases List.mem_append.mp hs with h | h <;>
    (rcases List.mem_map.mp h with ⟨x, _, rfl⟩; rfl)

/-- C7 (amended): for every non-clean pattern the step list contains the
execution-sequence listing exactly when the audited sequence has 2 or more
entries; the sequence listing and every hazard/handler warning line precede
all consolidation instructions, except in the `deprecated_plus_flow`
non-apex-first branch with fragmented flows, whose initial flow-consolidation
step precedes them; and the final step is a deactivate-only-after-testing
step, except for `flow_and_apex`, which ends with the cross-referencing
documentation step. -/
theorem buildSteps_structure (pattern : String)
    (hpat : pattern ∈ ["deprecated_only", "deprecated_plus_flow",
      "deprecated_plus_apex", "deprecated_plus_mixed", "flow_fragmented",
      "apex_fragmented", "flow_and_apex"])
    (objectName : String) (activeItems : List Item) (overlaps : Overlaps)
    (preference : String) (handlerPairs : List HandlerPair)
    (handlerWarnings : List HandlerWarning) (a : Audit) :
    (Step.seqListing a.sequence ∈ buildSteps pattern objectName activeItems overlaps
        preference handlerPairs handlerWarnings (some a) ↔ 2 ≤ a.sequence.length) ∧
    (pattern ≠ "flow_and_apex" →
      ∃ s, (buildSteps pattern objectName activeItems overlaps preference handlerPairs
          handlerWarnings (some a)).getLast? = some s ∧ isDeactivateStep s = true) ∧
    (pattern = "flow_and_apex" →
      (buildSteps pattern objectName activeItems overlaps preference handlerPairs
        handlerWarnings (some a)).getLast? = some Step.ensureDescriptions) ∧
    (¬ (pattern = "deprecated_plus_flow" ∧ ¬ (preference = "apex_first") ∧
        flowsShareEvent (activeItems.filter
          (fun i => MODERN_FLOW_TYPES.contains i.automation_type)) = true) →
      (buildSteps pattern objectName activeItems overlaps preference handlerPairs
        handlerWarnings (some a)).Pairwise stepRW) := by
  have warnL := warnSteps_no_listing a handlerWarnings
  have warnP := warnSteps_prelude a handlerWarnings
  simp only [List.mem_cons, List.not_mem_nil, or_false] at hpat
  rcases hpat with rfl | rfl | rfl | rfl | rfl | rfl | rfl
  · -- deprecated_only
    have heq : buildSteps "deprecated_only" objectName activeItems overlaps preference
        handlerPairs handlerWarnings (some a) =
        [Step.auditDeprecatedEmail (namesOf (activeItems.filter
          (fun i => DEPRECATED_TYPES.contains i.automation_type))) objectName] ++
        seqPartOf a ++
        (a.risks.map Step.riskWarning ++ handlerWarnings.map Step.handlerWarning) ++
        [(if preference == "apex_first" then Step.buildApexHandler objectName
          else Step.buildNewFlow objectName),
         Step.testNewTarget
           (if preference == "apex_first" then "Apex Trigger handler"
            else "Record-Triggered Flow")
           (namesOf (activeItems.filter
             (fun i => DEPRECATED_TYPES.contains i.automation_type))),
         Step.deactivateArchive (namesOf (activeItems.filter
           (fun i => DEPRECATED_TYPES.contains i.automation_type)))] := rfl
    have h := normal_form_props
      [Step.auditDeprecatedEmail (namesOf (activeItems.filter
        (fun i => DEPRECATED_TYPES.contains i.automation_type))) objectName]
      []
      (a.risks.map Step.riskWarning ++ handlerWarnings.map Step.handlerWarning)
      [(if preference == "apex_first" then Step.buildApexHandler objectName
        else Step.buildNewFlow objectName),
       Step.testNewTarget
         (if preference == "apex_first" then "Apex Trigger handler"
          else "Record-Triggered Flow")
         (namesOf (activeItems.filter
           (fun i => DEPRECATED_TYPES.contains i.automation_type))),
       Step.deactivateArchive (namesOf (activeItems.filter
         (fun i => DEPRECATED_TYPES.contains i.automation_type)))] a
      (by simp [isSeqListingStep]) (by simp) warnL
      (by
        intro s hs
        simp only [List.mem_cons, List.not_mem_nil, or_false] at hs
        rcases hs with rfl | rfl | rfl
        · exact ⟨by split <;> rfl, by split <;> rfl⟩
        · exact ⟨rfl, rfl⟩
        · exact ⟨rfl, rfl⟩)
      (by simp)
    simp only [List.nil_append] at h
    refine ⟨?_, ?_, ?_, ?_⟩
    · rw [heq, List.append_assoc, List.append_assoc]
      exact h.1
    · intro _
      refine ⟨Step.deactivateArchive (namesOf (activeItems.filter
        (fun i => DEPRECATED_TYPES.contains i.automation_type))), ?_, rfl⟩
      rw [heq, List.append_assoc, List.append_assoc, h.2.1]
      rfl
    · intro hcon; exact absurd hcon (by decide)
    · intro _
      rw [heq, List.append_assoc, List.append_assoc]
      exact h.2.2 (by simp [isPreludeStep, isAuditStep]) (by simp) warnP
  · -- deprecated_plus_flow
    have heq : buildSteps "deprecated_plus_flow" objectName activeItems overlaps
        preference handlerPairs handlerWarnings (some a) =
        (if preference == "apex_first" then
          [Step.auditExistingFlows (activeItems.filter
              (fun i => MODERN_FLOW_TYPES.contains i.automation_type)).length objectName
             (namesOf (activeItems.filter
               (fun i => MODERN_FLOW_TYPES.contains i.automation_type))),
           Step.auditDeprecatedActions (namesOf (activeItems.filter
             (fun i => DEPRECATED_TYPES.contains i.automation_type)))] ++
          seqPartOf a ++
          (a.risks.map Step.riskWarning ++ handlerWarnings.map Step.handlerWarning) ++
          [Step.consolidateAllIntoHandler (activeItems.filter
              (fun i => MODERN_FLOW_TYPES.contains i.automation_type)).length objectName,
           Step.testConsolidatedTrigger,
           Step.deactivateOnce (namesOf ((activeItems.filter
               (fun i => MODERN_FLOW_TYPES.contains i.automation_type)) ++
             (activeItems.filter
               (fun i => DEPRECATED_TYPES.contains i.automation_type))))]
         else
          (if flowsShareEvent (activeItems.filter
              (fun i => MODERN_FLOW_TYPES.contains i.automation_type)) then
            [Step.consolidateSharedFlows (activeItems.filter
                (fun i => MODERN_FLOW_TYPES.contains i.automation_type)).length
              objectName
              (namesOf (activeItems.filter
                (fun i => MODERN_FLOW_TYPES.contains i.automation_type)))]
           else
            [Step.reviewExistingFlows (activeItems.filter
                (fun i => MODERN_FLOW_TYPES.contains i.automation_type)).length
              objectName
              (namesOf (activeItems.filter
                (fun i => MODERN_FLOW_TYPES.contains i.automation_type)))]) ++
          [Step.auditDeprecatedActions (namesOf (activeItems.filter
            (fun i => DEPRECATED_TYPES.contains i.automation_type)))] ++
          seqPartOf a ++
          (a.risks.map Step.riskWarning ++ handlerWarnings.map Step.handlerWarning) ++
          [Step.migrateIntoFlow (namesOf (activeItems.filter
              (fun i => DEPRECATED_TYPES.contains i.automation_type)))
             (flowsShareEvent (activeItems.filter
               (fun i => MODERN_FLOW_TYPES.contains i.automation_type))),
           Step.testUpdatedFlow,
           Step.deactivateMaybeRedundant (namesOf (activeItems.filter
               (fun i => DEPRECATED_TYPES.contains i.automation_type)))
             (flowsShareEvent (activeItems.filter
               (fun i => MODERN_FLOW_TYPES.contains i.automation_type)))]) := rfl
    by_cases hpref : preference = "apex_first"
    · have hb : (preference == "apex_first") = true := by simpa using hpref
      have heqA := heq.trans (if_pos hb)
      have h := normal_form_props
        [Step.auditExistingFlows (activeItems.filter
            (fun i => MODERN_FLOW_TYPES.contains i.automation_type)).length objectName
           (namesOf (activeItems.filter
             (fun i => MODERN_FLOW_TYPES.contains i.automation_type))),
         Step.auditDeprecatedActions (namesOf (activeItems.filter
           (fun i => DEPRECATED_TYPES.contains i.automation_type)))]
        []
        (a.risks.map Step.riskWarning ++ handlerWarnings.map Step.handlerWarning)
        [Step.consolidateAllIntoHandler (activeItems.filter
            (fun i => MODERN_FLOW_TYPES.contains i.automation_type)).length objectName,
         Step.testConsolidatedTrigger,
         Step.deactivateOnce (namesOf ((activeItems.filter
             (fun i => MODERN_FLOW_TYPES.contains i.automation_type)) ++
           (activeItems.filter
             (fun i => DEPRECATED_TYPES.contains i.automation_type))))] a
        (by simp [isSeqListingStep]) (by simp) warnL
        (by
          intro s hs
          simp only [List.mem_cons, List.not_mem_nil, or_false] at hs
          rcases hs with rfl | rfl | rfl
          · exact ⟨rfl, rfl⟩
          · exact ⟨rfl, rfl⟩
          · exact ⟨rfl, rfl⟩)
        (by simp)
      simp only [List.nil_append] at h
      refine ⟨?_, ?_, ?_, ?_⟩
      · rw [heqA, List.append_assoc, List.append_assoc]
        exact h.1
      · intro _
        refine ⟨Step.deactivateOnce (namesOf ((activeItems.filter
            (fun i => MODERN_FLOW_TYPES.contains i.automation_type)) ++
          (activeItems.filter
            (fun i => DEPRECATED_TYPES.contains i.automation_type)))), ?_, rfl⟩
        rw [heqA, List.append_assoc, List.append_assoc, h.2.1]
        rfl
      · intro hcon; exact absurd hcon (by decide)
      · intro _
        rw [heqA, List.append_assoc, List.append_assoc]
        exact h.2.2 (by simp [isPreludeStep, isAuditStep]) (by simp) warnP
    · have hb : ¬ ((preference == "apex_first") = true) := by simpa using hpref
      have heqF := heq.trans (if_neg hb)
      have h := normal_form_props
        ((if flowsShareEvent (activeItems.filter
            (fun i => MODERN_FLOW_TYPES.contains i.automation_type)) then
           [Step.consolidateSharedFlows (activeItems.filter
               (fun i => MODERN_FLOW_TYPES.contains i.automation_type)).length
             objectName
             (namesOf (activeItems.filter
               (fun i => MODERN_FLOW_TYPES.contains i.automation_type)))]
          else
           [Step.reviewExistingFlows (activeItems.filter
               (fun i => MODERN_FLOW_TYPES.contains i.automation_type)).length
             objectName
             (namesOf (activeItems.filter
               (fun i => MODERN_FLOW_TYPES.contains i.automation_type)))]) ++
         [Step.auditDeprecatedActions (namesOf (activeItems.filter
           (fun i => DEPRECATED_TYPES.contains i.automation_type)))])
        []
        (a.risks.map Step.riskWarning ++ handlerWarnings.map Step.handlerWarning)
        [Step.migrateIntoFlow (namesOf (activeItems.filter
            (fun i => DEPRECATED_TYPES.contains i.automation_type)))
           (flowsShareEvent (activeItems.filter
             (fun i => MODERN_FLOW_TYPES.contains i.automation_type))),
         Step.testUpdatedFlow,
         Step.deactivateMaybeRedundant (namesOf (activeItems.filter
             (fun i => DEPRECATED_TYPES.contains i.automation_type)))
           (flowsShareEvent (activeItems.filter
             (fun i => MODERN_FLOW_TYPES.contains i.automation_type)))] a
        (by
          intro s hs
          rcases List.mem_append.mp hs with hs | hs
          · split at hs <;>
              (simp only [List.mem_singleton] at hs; subst hs; rfl)
          · simp only [List.mem_singleton] at hs; subst hs; rfl)
        (by simp) warnL
        (by
          intro s hs
          simp only [List.mem_cons, List.not_mem_nil, or_false] at hs
          rcases hs with rfl | rfl | rfl
          · exact ⟨rfl, rfl⟩
          · exact ⟨rfl, rfl⟩
          · exact ⟨rfl, rfl⟩)
        (by simp)
      simp only [List.nil_append] at h
      refine ⟨?_, ?_, ?_, ?_⟩
      · rw [heqF, List.append_assoc, List.append_assoc]
        exact h.1
      · intro _
        refine ⟨Step.deactivateMaybeRedundant (namesOf (activeItems.filter
            (fun i => DEPRECATED_TYPES.contains i.automation_type)))
          (flowsShareEvent (activeItems.filter
            (fun i => MODERN_FLOW_TYPES.contains i.automation_type))), ?_, rfl⟩
        rw [heqF, List.append_assoc, List.append_assoc, h.2.1]
        rfl
      · intro hcon; exact absurd hcon (by decide)
      · intro hexc
        have hfrag : flowsShareEvent (activeItems.filter
            (fun i => MODERN_FLOW_TYPES.contains i.automation_type)) = false := by
          by_contra hff
          exact hexc ⟨rfl, hpref, by simpa using hff⟩
        rw [heqF, List.append_assoc, List.append_assoc]
        exact h.2.2
          (by
            intro s hs
            rw [hfrag, if_neg (by simp)] at hs
            simp only [List.mem_append, List.mem_singleton] at hs
            rcases hs with rfl | rfl <;> rfl)
          (by simp) warnP
  · -- deprecated_plus_apex
    have heq : buildSteps "deprecated_plus_apex" objectName activeItems overlaps
        preference handlerPairs handlerWarnings (some a) =
        [Step.auditApexMap (describeApex (activeItems.filter
            (fun i => APEX_TYPES.contains i.automation_type)) handlerPairs) objectName
           (handlerPairs.length > 0),
         Step.auditDeprecatedActions (namesOf (activeItems.filter
           (fun i => DEPRECATED_TYPES.contains i.automation_type)))] ++
        seqPartOf a ++
        (a.risks.map Step.riskWarning ++ handlerWarnings.map Step.handlerWarning) ++
        (if preference == "flow_first" then
          [Step.evaluateApexToFlowMigrate (describeApex (activeItems.filter
              (fun i => APEX_TYPES.contains i.automation_type)) handlerPairs)
            (namesOf (activeItems.filter
              (fun i => DEPRECATED_TYPES.contains i.automation_type))) objectName]
         else
          [Step.consolidateIntoExistingHandler (namesOf (activeItems.filter
              (fun i => DEPRECATED_TYPES.contains i.automation_type))) objectName]) ++
        [Step.testConsolidatedAutomation,
         Step.deactivateOnce (namesOf (activeItems.filter
           (fun i => DEPRECATED_TYPES.contains i.automation_type)))] := rfl
    have h := normal_form_props
      [Step.auditApexMap (describeApex (activeItems.filter
          (fun i => APEX_TYPES.contains i.automation_type)) handlerPairs) objectName
         (handlerPairs.length > 0),
       Step.auditDeprecatedActions (namesOf (activeItems.filter
         (fun i => DEPRECATED_TYPES.contains i.automation_type)))]
      []
      (a.risks.map Step.riskWarning ++ handlerWarnings.map Step.handlerWarning)
      ((if preference == "flow_first" then
         [Step.evaluateApexToFlowMigrate (describeApex (activeItems.filter
             (fun i => APEX_TYPES.contains i.automation_type)) handlerPairs)
           (namesOf (activeItems.filter
             (fun i => DEPRECATED_TYPES.contains i.automation_type))) objectName]
        else
         [Step.consolidateIntoExistingHandler (namesOf (activeItems.filter
             (fun i => DEPRECATED_TYPES.contains i.automation_type))) objectName]) ++
       [Step.testConsolidatedAutomation,
        Step.deactivateOnce (namesOf (activeItems.filter
          (fun i => DEPRECATED_TYPES.contains i.automation_type)))]) a
      (by simp [isSeqListingStep]) (by simp) warnL
      (by
        intro s hs
        rcases List.mem_append.mp hs with hs | hs
        · split at hs <;>
            (simp only [List.mem_singleton] at hs; subst hs; exact ⟨rfl, rfl⟩)
        · simp only [List.mem_cons, List.not_mem_nil, or_false] at hs
          rcases hs with rfl | rfl
          · exact ⟨rfl, rfl⟩
          · exact ⟨rfl, rfl⟩)
      (by simp)
    simp only [List.nil_append] at h
    refine ⟨?_, ?_, ?_, ?_⟩
    · rw [heq, List.append_assoc, List.append_assoc, List.append_assoc]
      exact h.1
    · intro _
      refine ⟨Step.deactivateOnce (namesOf (activeItems.filter
        (fun i => DEPRECATED_TYPES.contains i.automation_type))), ?_, rfl⟩
      rw [heq, List.append_assoc, List.append_assoc, List.append_assoc, h.2.1,
        List.getLast?_append_of_ne_nil _ (by simp)]
      rfl
    · intro hcon; exact absurd hcon (by decide)
    · intro _
      rw [heq, List.append_assoc, List.append_assoc, List.append_assoc]
      exact h.2.2 (by simp [isPreludeStep, isAuditStep]) (by simp) warnP
  · -- deprecated_plus_mixed
    have heq : buildSteps "deprecated_plus_mixed" objectName activeItems overlaps
        preference handlerPairs handlerWarnings (some a) =
        [Step.fullAuditComplex objectName (namesOf activeItems)] ++
        seqPartOf a ++
        [Step.auditApexAsync (describeApex (activeItems.filter
            (fun i => APEX_TYPES.contains i.automation_type)) handlerPairs)
           (handlerPairs.length > 0),
         Step.auditFlowsElements (namesOf (activeItems.filter
           (fun i => MODERN_FLOW_TYPES.contains i.automation_type))),
         Step.auditDeprecatedActions (namesOf (activeItems.filter
           (fun i => DEPRECATED_TYPES.contains i.automation_type)))] ++
        (a.risks.map Step.riskWarning ++ handlerWarnings.map Step.handlerWarning) ++
        (if preference == "apex_first" then
          [Step.consolidateAllApexMixed objectName, Step.buildRegressionSuite,
           Step.deactivateVerified (namesOf ((activeItems.filter
               (fun i => DEPRECATED_TYPES.contains i.automation_type)) ++
             (activeItems.filter
               (fun i => MODERN_FLOW_TYPES.contains i.automation_type))))]
         else
          [Step.evaluateApexToConsolidatedFlow (describeApex (activeItems.filter
               (fun i => APEX_TYPES.contains i.automation_type)) handlerPairs)
             (activeItems.filter
               (fun i => MODERN_FLOW_TYPES.contains i.automation_type)).length
             (namesOf (activeItems.filter
               (fun i => DEPRECATED_TYPES.contains i.automation_type))) objectName,
           Step.buildRegressionSuite,
           Step.deactivateMaybeRedundant (namesOf (activeItems.filter
               (fun i => DEPRECATED_TYPES.contains i.automation_type)))
             ((activeItems.filter
               (fun i => MODERN_FLOW_TYPES.contains i.automation_type)).length > 1)]) := rfl
    have h := normal_form_props
      [Step.fullAuditComplex objectName (namesOf activeItems)]
      [Step.auditApexAsync (describeApex (activeItems.filter
          (fun i => APEX_TYPES.contains i.automation_type)) handlerPairs)
         (handlerPairs.length > 0),
       Step.auditFlowsElements (namesOf (activeItems.filter
         (fun i => MODERN_FLOW_TYPES.contains i.automation_type))),
       Step.auditDeprecatedActions (namesOf (activeItems.filter
         (fun i => DEPRECATED_TYPES.contains i.automation_type)))]
      (a.risks.map Step.riskWarning ++ handlerWarnings.map Step.handlerWarning)
      (if preference == "apex_first" then
        [Step.consolidateAllApexMixed objectName, Step.buildRegressionSuite,
         Step.deactivateVerified (namesOf ((activeItems.filter
             (fun i => DEPRECATED_TYPES.contains i.automation_type)) ++
           (activeItems.filter
             (fun i => MODERN_FLOW_TYPES.contains i.automation_type))))]
       else
        [Step.evaluateApexToConsolidatedFlow (describeApex (activeItems.filter
             (fun i => APEX_TYPES.contains i.automation_type)) handlerPairs)
           (activeItems.filter
             (fun i => MODERN_FLOW_TYPES.contains i.automation_type)).length
           (namesOf (activeItems.filter
             (fun i => DEPRECATED_TYPES.contains i.automation_type))) objectName,
         Step.buildRegressionSuite,
         Step.deactivateMaybeRedundant (namesOf (activeItems.filter
             (fun i => DEPRECATED_TYPES.contains i.automation_type)))
           ((activeItems.filter
             (fun i => MODERN_FLOW_TYPES.contains i.automation_type)).length > 1)]) a
      (by simp [isSeqListingStep]) (by simp [isSeqListingStep]) warnL
      (by
        intro s hs
        split at hs <;>
          (simp only [List.mem_cons, List.not_mem_nil, or_false] at hs;
           rcases hs with rfl | rfl | rfl
           · exact ⟨rfl, rfl⟩
           · exact ⟨rfl, rfl⟩
           · exact ⟨rfl, rfl⟩))
      (by split <;> simp)
    refine ⟨?_, ?_, ?_, ?_⟩
    · rw [heq, List.append_assoc, List.append_assoc, List.append_assoc]
      exact h.1
    · intro _
      have hl := h.2.1
      by_cases hb : (preference == "apex_first") = true
      · refine ⟨Step.deactivateVerified (namesOf ((activeItems.filter
            (fun i => DEPRECATED_TYPES.contains i.automation_type)) ++
          (activeItems.filter
            (fun i => MODERN_FLOW_TYPES.contains i.automation_type)))), ?_, rfl⟩
        rw [heq, List.append_assoc, List.append_assoc, List.append_assoc, hl,
          if_pos hb]
        rfl
      · refine ⟨Step.deactivateMaybeRedundant (namesOf (activeItems.filter
            (fun i => DEPRECATED_TYPES.contains i.automation_type)))
          ((activeItems.filter
            (fun i => MODERN_FLOW_TYPES.contains i.automation_type)).length > 1),
          ?_, rfl⟩
        rw [heq, List.append_assoc, List.append_assoc, List.append_assoc, hl,
          if_neg hb]
        rfl
    · intro hcon; exact absurd hcon (by decide)
    · intro _
      rw [heq, List.append_assoc, List.append_assoc, List.append_assoc]
      exact h.2.2 (by simp [isPreludeStep, isAuditStep])
        (by simp [isPreludeStep, isAuditStep]) warnP
  · -- flow_fragmented
    have heq : buildSteps "flow_fragmented" objectName activeItems overlaps preference
        handlerPairs handlerWarnings (some a) =
        [Step.auditSharedFlows (activeItems.filter
            (fun i => MODERN_FLOW_TYPES.contains i.automation_type)).length objectName
          (namesOf (activeItems.filter
            (fun i => MODERN_FLOW_TYPES.contains i.automation_type)))] ++
        seqPartOf a ++
        (a.risks.map Step.riskWarning ++ handlerWarnings.map Step.handlerWarning) ++
        [Step.mergeFlowsDecision, Step.testConsolidatedFlow,
         Step.deactivateRedundantFlows] := rfl
    have h := normal_form_props
      [Step.auditSharedFlows (activeItems.filter
          (fun i => MODERN_FLOW_TYPES.contains i.automation_type)).length objectName
        (namesOf (activeItems.filter
          (fun i => MODERN_FLOW_TYPES.contains i.automation_type)))]
      []
      (a.risks.map Step.riskWarning ++ handlerWarnings.map Step.handlerWarning)
      [Step.mergeFlowsDecision, Step.testConsolidatedFlow,
       Step.deactivateRedundantFlows] a
      (by simp [isSeqListingStep]) (by simp) warnL
      (by
        intro s hs
        simp only [List.mem_cons, List.not_mem_nil, or_false] at hs
        rcases hs with rfl | rfl | rfl
        · exact ⟨rfl, rfl⟩
        · exact ⟨rfl, rfl⟩
        · exact ⟨rfl, rfl⟩)
      (by simp)
    simp only [List.nil_append] at h
    refine ⟨?_, ?_, ?_, ?_⟩
    · rw [heq, List.append_assoc, List.append_assoc]
      exact h.1
    · intro _
      refine ⟨Step.deactivateRedundantFlows, ?_, rfl⟩
      rw [heq, List.append_assoc, List.append_assoc, h.2.1]
      rfl
    · intro hcon; exact absurd hcon (by decide)
    · intro _
      rw [heq, List.append_assoc, List.append_assoc]
      exact h.2.2 (by simp [isPreludeStep, isAuditStep]) (by simp) warnP
  · -- apex_fragmented
    have heq : buildSteps "apex_fragmented" objectName activeItems overlaps preference
        handlerPairs handlerWarnings (some a) =
        [Step.auditApexUndefined (describeApex (activeItems.filter
            (fun i => APEX_TYPES.contains i.automation_type)) handlerPairs) objectName
          (handlerPairs.length > 0)] ++
        seqPartOf a ++
        (a.risks.map Step.riskWarning ++ handlerWarnings.map Step.handlerWarning) ++
        [Step.implementSingleHandler objectName
          (if handlerPairs.length > 0 then
            some (handlerPairs.map (fun p => p.handlerClass.api_name))
           else none),
         Step.replaceTriggersDispatch (activeItems.filter
           (fun i => APEX_TYPES.contains i.automation_type)).length,
         Step.testConsolidatedHandler,
         Step.deleteOrDeactivateTriggers] := rfl
    have h := normal_form_props
      [Step.auditApexUndefined (describeApex (activeItems.filter
          (fun i => APEX_TYPES.contains i.automation_type)) handlerPairs) objectName
        (handlerPairs.length > 0)]
      []
      (a.risks.map Step.riskWarning ++ handlerWarnings.map Step.handlerWarning)
      [Step.implementSingleHandler objectName
        (if handlerPairs.length > 0 then
          some (handlerPairs.map (fun p => p.handlerClass.api_name))
         else none),
       Step.replaceTriggersDispatch (activeItems.filter
         (fun i => APEX_TYPES.contains i.automation_type)).length,
       Step.testConsolidatedHandler,
       Step.deleteOrDeactivateTriggers] a
      (by simp [isSeqListingStep]) (by simp) warnL
      (by
        intro s hs
        simp only [List.mem_cons, List.not_mem_nil, or_false] at hs
        rcases hs with rfl | rfl | rfl | rfl
        · exact ⟨rfl, rfl⟩
        · exact ⟨rfl, rfl⟩
        · exact ⟨rfl, rfl⟩
        · exact ⟨rfl, rfl⟩)
      (by simp)
    simp only [List.nil_append] at h
    refine ⟨?_, ?_, ?_, ?_⟩
    · rw [heq, List.append_assoc, List.append_assoc]
      exact h.1
    · intro _
      refine ⟨Step.deleteOrDeactivateTriggers, ?_, rfl⟩
      rw [heq, List.append_assoc, List.append_assoc, h.2.1]
      rfl
    · intro hcon; exact absurd hcon (by decide)
    · intro _
      rw [heq, List.append_assoc, List.append_assoc]
      exact h.2.2 (by simp [isPreludeStep, isAuditStep]) (by simp) warnP
  · -- flow_and_apex
    have heq : buildSteps "flow_and_apex" objectName activeItems overlaps preference
        handlerPairs handlerWarnings (some a) =
        [Step.auditFlowsCoexist (namesOf (activeItems.filter
            (fun i => MODERN_FLOW_TYPES.contains i.automation_type))),
         Step.auditApexCoexist (describeApex (activeItems.filter
             (fun i => APEX_TYPES.contains i.automation_type)) handlerPairs)
           (handlerPairs.length > 0)] ++
        seqPartOf a ++
        (a.risks.map Step.riskWarning ++ handlerWarnings.map Step.handlerWarning) ++
        [Step.evaluateCoexistence (preference == "flow_first"),
         Step.ensureDescriptions] := rfl
    have h := normal_form_props
      [Step.auditFlowsCoexist (namesOf (activeItems.filter
          (fun i => MODERN_FLOW_TYPES.contains i.automation_type))),
       Step.auditApexCoexist (describeApex (activeItems.filter
           (fun i => APEX_TYPES.contains i.automation_type)) handlerPairs)
         (handlerPairs.length > 0)]
      []
      (a.risks.map Step.riskWarning ++ handlerWarnings.map Step.handlerWarning)
      [Step.evaluateCoexistence (preference == "flow_first"),
       Step.ensureDescriptions] a
      (by simp [isSeqListingStep]) (by simp) warnL
      (by
        intro s hs
        simp only [List.mem_cons, List.not_mem_nil, or_false] at hs
        rcases hs with rfl | rfl
        · exact ⟨rfl, rfl⟩
        · exact ⟨rfl, rfl⟩)
      (by simp)
    simp only [List.nil_append] at h
    refine ⟨?_, ?_, ?_, ?_⟩
    · rw [heq, List.append_assoc, List.append_assoc]
      exact h.1
    · intro hne; exact absurd rfl hne
    · intro _
      rw [heq, List.append_assoc, List.append_assoc, h.2.1]
      rfl
    · intro _
      rw [heq, List.append_assoc, List.append_assoc]
      exact h.2.2 (by simp [isPreludeStep, isAuditStep]) (by simp) warnP

/-- Example items of C7: a flow/apex coexistence pair, a fragmented
deprecated-plus-flow stack, and a legacy rule beside an autolaunched flow. -/
def c7flow : Item :=
  ⟨41, "FlowX", some "Account", "Record-Triggered Flow", some "after save", true, true,
   false, none⟩

def c7apex : Item :=
  ⟨42, "TrigX", some "Account", "Apex Trigger", none, true, true, false,
   some ⟨none, some ["before insert"], none, none, none, none, none⟩⟩

def c7wfr : Item :=
  ⟨43, "WFRY", some "Opportunity", "Workflow Rule", none, true, true, false, none⟩

def c7flow1 : Item :=
  ⟨44, "FY1", some "Opportunity", "Record-Triggered Flow", some "after save", true, true,
   false, none⟩

def c7flow2 : Item :=
  ⟨45, "FY2", some "Opportunity", "Record-Triggered Flow", some "after save", true, true,
   false, none⟩

def c7wfrz : Item :=
  ⟨46, "WFRZ", some "Case", "Workflow Rule", none, true, true, false, none⟩

def c7auto : Item :=
  ⟨47, "AL1", some "Case", "Autolaunched Flow", none, true, true, false, none⟩

/-- C7 counterexample: (1) the `flow_and_apex` step list ends with the
documentation step, not a deactivate step; (2) in the fragmented
`deprecated_plus_flow` flow-first branch the first step is already a
flow-consolidation instruction while the sequence listing only appears later;
(3) with two participating items of which one occupies no phase, the sequence
listing is omitted although 2 items participate. -/
theorem buildSteps_violations :
    (classifyStack [c7flow, c7apex] = "flow_and_apex" ∧
     (buildSteps "flow_and_apex" "Account" [c7flow, c7apex]
        (detectOverlaps [c7flow, c7apex]) "flow_first" [] []
        (some (auditOrderOfExecution [c7flow, c7apex]))).getLast? =
       some Step.ensureDescriptions ∧
     isDeactivateStep Step.ensureDescriptions = false) ∧
    (classifyStack [c7wfr, c7flow1, c7flow2] = "deprecated_plus_flow" ∧
     (buildSteps "deprecated_plus_flow" "Opportunity" [c7wfr, c7flow1, c7flow2]
        (detectOverlaps [c7wfr, c7flow1, c7flow2]) "flow_first" [] []
        (some (auditOrderOfExecution [c7wfr, c7flow1, c7flow2]))).head? =
       some (Step.consolidateSharedFlows 2 "Opportunity" ["FY1", "FY2"]) ∧
     isPreludeStep (Step.consolidateSharedFlows 2 "Opportunity" ["FY1", "FY2"]) = false ∧
     Step.seqListing (auditOrderOfExecution [c7wfr, c7flow1, c7flow2]).sequence ∈
       (buildSteps "deprecated_plus_flow" "Opportunity" [c7wfr, c7flow1, c7flow2]
         (detectOverlaps [c7wfr, c7flow1, c7flow2]) "flow_first" [] []
         (some (auditOrderOfExecution [c7wfr, c7flow1, c7flow2]))).drop 1) ∧
    ([c7wfrz, c7auto].length = 2 ∧
     classifyStack [c7wfrz, c7auto] = "deprecated_only" ∧
     (auditOrderOfExecution [c7wfrz, c7auto]).sequence.length = 1 ∧
     (buildSteps "deprecated_only" "Case" [c7wfrz, c7auto]
        (detectOverlaps [c7wfrz, c7auto]) "flow_first" [] []
        (some (auditOrderOfExecution [c7wfrz, c7auto]))).all
       (fun s => !(isSeqListingStep s)) = true) := by
  exact ⟨⟨by decide, by decide, by decide⟩,
         ⟨by decide, by decide, by decide, by decide⟩,
         ⟨by decide, by decide, by decide, by decide⟩⟩

/-- C7 witness: the amended structure theorem applied to the coexistence pair,
whose two-entry sequence forces the listing into the step list. -/
theorem buildSteps_structure_witness :
    Step.seqListing (auditOrderOfExecution [c7flow, c7apex]).sequence ∈
      buildSteps "flow_and_apex" "Account" [c7flow, c7apex]
        (detectOverlaps [c7flow, c7apex]) "flow_first" [] []
        (some (auditOrderOfExecution [c7flow, c7apex])) := by
  exact (buildSteps_structure "flow_and_apex" (by decide) "Account" [c7flow, c7apex]
    (detectOverlaps [c7flow, c7apex]) "flow_first" [] []
    (auditOrderOfExecution [c7flow, c7apex])).1.mpr (by decide)

-- ───────────────────────────────────────────────────────────────────────────
-- C10 — template placeholder substitution
-- ───────────────────────────────────────────────────────────────────────────

theorem applyTemplateGo_nil (item : Item) : ∀ f, applyTemplateGo item f [] = [] := by
  intro f
  cases f <;> rfl

theorem matchPlaceholder_not_brace {c : Char} {rest : List Char} (h : ¬(c = '{')) :
    matchPlaceholder (c :: rest) = none := by
  unfold matchPlaceholder
  split
  · rename_i rest2 heq
    rw [List.cons.injEq] at heq
    exact absurd heq.1 h
  · rfl

theorem takeWhile_word_prefix (suf : List Char) :
    ∀ w : List Char, (∀ ch ∈ w, isWordChar ch = true) →
      (w ++ '}' :: '}' :: suf).takeWhile isWordChar = w ∧
      (w ++ '}' :: '}' :: suf).dropWhile isWordChar = '}' :: '}' :: suf := by
  intro w
  induction w with
  | nil =>
    intro _
    constructor
    · rw [List.nil_append, List.takeWhile_cons_of_neg (by decide)]
    · rw [List.nil_append, List.dropWhile_cons_of_neg (by decide)]
  | cons c cs ih =>
    intro hword
    have hc : isWordChar c = true := hword c (by simp)
    rcases ih (fun ch hch => hword ch (List.mem_cons_of_mem c hch)) with ⟨h1, h2⟩
    constructor
    · rw [List.cons_append, List.takeWhile_cons_of_pos hc, h1]
    · rw [List.cons_append, List.dropWhile_cons_of_pos hc, h2]

theorem matchPlaceholder_hit (w suf : List Char) (hw : w ≠ [])
    (hword : ∀ ch ∈ w, isWordChar ch = true) :
    matchPlaceholder ('{' :: '{' :: (w ++ '}' :: '}' :: suf)) = some (w, suf) := by
  rcases takeWhile_word_prefix suf w hword with ⟨h1, h2⟩
  have hred : matchPlaceholder ('{' :: '{' :: (w ++ '}' :: '}' :: suf)) =
      (match (w ++ '}' :: '}' :: suf).dropWhile isWordChar with
       | '}' :: '}' :: rest2 =>
         if ((w ++ '}' :: '}' :: suf).takeWhile isWordChar).isEmpty then none
         else some ((w ++ '}' :: '}' :: suf).takeWhile isWordChar, rest2)
       | _ => none) := rfl
  rw [hred, h1, h2]
  simp [hw]

theorem applyTemplateGo_copy (item : Item) :
    ∀ (pre : List Char) (rest : List Char) (fuel : Nat),
      (∀ ch ∈ pre, ¬(ch = '{')) → pre.length + rest.length ≤ fuel →
      applyTemplateGo item fuel (pre ++ rest) =
        pre ++ applyTemplateGo item (fuel - pre.length) rest := by
  intro pre
  induction pre with
  | nil => intro rest fuel _ _; simp
  | cons c cs ih =>
    intro rest fuel hnb hlen
    have hfuel : ∃ f, fuel = f + 1 := by
      cases fuel
      · simp at hlen
      · exact ⟨_, rfl⟩
    rcases hfuel with ⟨f, rfl⟩
    have hstep : applyTemplateGo item (f + 1) ((c :: cs) ++ rest) =
        c :: applyTemplateGo item f (cs ++ rest) := by
      rw [List.cons_append]
      simp only [applyTemplateGo,
        matchPlaceholder_not_brace (hnb c (by simp))]
    rw [hstep, ih rest f (fun ch hch => hnb ch (List.mem_cons_of_mem c hch))
      (by simp only [List.length_cons] at hlen; omega)]
    have hsub : f + 1 - (c :: cs).length = f - cs.length := by
      simp only [List.length_cons]; omega
    rw [List.cons_append, hsub]

theorem applyTemplateGo_fuel (item : Item) :
    ∀ (f1 f2 : Nat) (l : List Char), l.length ≤ f1 → l.length ≤ f2 →
      applyTemplateGo item f1 l = applyTemplateGo item f2 l := by
  intro f1
  induction f1 with
  | zero =>
    intro f2 l h1 _
    have : l = [] := by
      cases l
      · rfl
      · simp at h1
    subst this
    rw [applyTemplateGo_nil, applyTemplateGo_nil]
  | succ n ih =>
    intro f2 l h1 h2
    cases l with
    | nil => rw [applyTemplateGo_nil, applyTemplateGo_nil]
    | cons c rest =>
      have hf2 : ∃ m, f2 = m + 1 := by
        cases f2
        · simp at h2
        · exact ⟨_, rfl⟩
      rcases hf2 with ⟨m, rfl⟩
      cases hmp : matchPlaceholder (c :: rest) with
      | some p =>
        have hplen := matchPlaceholder_length hmp
        simp only [List.length_cons] at hplen h1 h2
        simp only [applyTemplateGo, hmp]
        rw [ih m p.2 (by omega) (by omega)]
      | none =>
        simp only [List.length_cons] at h1 h2
        simp only [applyTemplateGo, hmp]
        rw [ih m rest (by omega) (by omega)]

/-- C10: rendering substitutes a `{{token}}` placeholder whose named attribute
is `null` or absent on the item by the empty string: for any template of the
form `pre ++ "{{" ++ w ++ "}}" ++ suf` with a brace-free prefix (pinning the
leftmost placeholder; the equation recurses on `suf`, covering every later
placeholder), the rendered text is `pre` followed by the rendering of `suf` —
in particular no placeholder text and no spurious `null`/`undefined` text
remains for that token. -/
theorem applyTemplate_missing_attr (item : Item) (pre w suf : List Char)
    (hpre : ∀ ch ∈ pre, ¬(ch = '{')) (hw : w ≠ [])
    (hword : ∀ ch ∈ w, isWordChar ch = true)
    (hmiss : getAttr item (String.mk w) = JSPrim.undefined ∨
      getAttr item (String.mk w) = JSPrim.null) :
    applyTemplateAux item (pre ++ '{' :: '{' :: (w ++ '}' :: '}' :: suf)) =
      pre ++ applyTemplateAux item suf := by
  unfold applyTemplateAux
  rw [applyTemplateGo_copy item pre _ _ hpre (by simp)]
  congr 1
  have hrest : (pre ++ '{' :: '{' :: (w ++ '}' :: '}' :: suf)).length - pre.length =
      (w.length + suf.length + 3) + 1 := by
    simp
    omega
  rw [hrest]
  have hrepl : replacementFor item (String.mk w) = "" := by
    rcases hmiss with h | h <;> simp [replacementFor, h]
  have hstep : applyTemplateGo item ((w.length + suf.length + 3) + 1)
      ('{' :: '{' :: (w ++ '}' :: '}' :: suf)) =
      (replacementFor item (String.mk w)).data ++
        applyTemplateGo item (w.length + suf.length + 3) suf := by
    simp only [applyTemplateGo, matchPlaceholder_hit w suf hw hword]
  rw [hstep, hrepl]
  simp only [String.data]
  rw [List.nil_append]
  exact applyTemplateGo_fuel item _ _ suf (by omega) (by omega)

/-- Example item of the C10 witness: its object name is null. -/
def c10item : Item :=
  ⟨51, "X10", none, "Apex Trigger", none, true, true, false, none⟩

/-- C10 witness: substituting the null `object_name` attribute in
`a{{object_name}}b` leaves just the copied text around an empty substitution. -/
theorem applyTemplate_missing_attr_witness :
    applyTemplateAux c10item
        (['a'] ++ '{' :: '{' :: ("object_name".data ++ '}' :: '}' :: ['b'])) =
      ['a'] ++ applyTemplateAux c10item ['b'] := by
  exact applyTemplate_missing_attr c10item ['a'] ("object_name".data) ['b']
    (by decide) (by decide) (by decide) (Or.inr (by decide))

end SFGov
